import Mathlib

/-!
Verification development for the NotebookLM query pipeline.

The definitions below are a shallow embedding of the TypeScript source:
- `src/app/api/query/route.ts` (query orchestrator, diversity ranker,
  mode selector, streaming and non-streaming paths),
- `src/lib/prompts.ts` (`enhanceResponse`, `generateStrategicFollowups`,
  `extractKeyTerms`),
- the `GET /api/session` handler (default-workspace get-or-create).

JavaScript-specific behaviour (regex replaces, `String()` coercion,
truthiness, `Array.prototype.slice` / `String.prototype.slice`,
`JSON.parse`, 32-bit `| 0` arithmetic) is modelled explicitly.  Characters
that the surrounding tooling treats specially (apostrophe, quote, braces,
backslash) are produced with `Char.ofNat`.
-/

/-- ASCII apostrophe, as a string. -/
def sqS : String := String.singleton (Char.ofNat 39)

/-- ASCII double quote. -/
def qC : Char := Char.ofNat 34

/-- ASCII backslash. -/
def bsC : Char := Char.ofNat 92

/-- Left curly brace. -/
def lbC : Char := Char.ofNat 123

/-- Right curly brace. -/
def rbC : Char := Char.ofNat 125

/-- Left square bracket. -/
def lbkC : Char := Char.ofNat 91

/-- Right square bracket. -/
def rbkC : Char := Char.ofNat 93

/-- JS `\s` for the character set used by this code base (ASCII whitespace:
space, tab, line feed, carriage return, form feed, vertical tab). -/
def isWsJS (c : Char) : Bool :=
  c = ' ' || c = Char.ofNat 9 || c = Char.ofNat 10 || c = Char.ofNat 13 ||
  c = Char.ofNat 12 || c = Char.ofNat 11

/-- JS `String.prototype.trim`: strips whitespace from both ends. -/
def jsTrim (s : String) : String :=
  String.mk (((s.data.dropWhile isWsJS).reverse.dropWhile isWsJS).reverse)

/-- Collapse runs of two or more consecutive spaces into a single space
(used after every whitespace char has been mapped to a space). -/
def squeezeSpaces : List Char → List Char
  | [] => []
  | [c] => [c]
  | a :: b :: rest =>
    if a = ' ' && b = ' ' then squeezeSpaces (b :: rest)
    else a :: squeezeSpaces (b :: rest)

/-- JS `s.replace(/\s+/g, " ")`: every maximal whitespace run becomes one
space.  Equivalently: map each whitespace char to a space, then squeeze
consecutive spaces. -/
def wsRunsToSpace (s : String) : String :=
  String.mk (squeezeSpaces (s.data.map (fun c => if isWsJS c then ' ' else c)))

/-- JS `String.prototype.toLowerCase` restricted to ASCII (all inputs the
claims exercise are ASCII). -/
def jsToLower (s : String) : String := String.mk (s.data.map Char.toLower)

/-- JS `| 0`: coerce to a 32-bit signed integer (two's complement wrap). -/
def toInt32 (n : Int) : Int := (n + 2147483648) % 4294967296 - 2147483648

/-- One step of the rolling hash: `h = (h * 31 + t.charCodeAt(i)) | 0`. -/
def hashCombine (h : Int) (c : Char) : Int := toInt32 (h * 31 + (c.toNat : Int))

/-- `hashText` from `route.ts`: normalise whitespace, trim, lowercase, then
hash with 31-multiplier 32-bit arithmetic, returned as a decimal string. -/
def hashText (s : String) : String :=
  let t := jsToLower (jsTrim (wsRunsToSpace s))
  toString (t.data.foldl hashCombine 0)

/-- The alternatives of the `SMALL_TALK` regex
`^(hi|hello|hey|how are you|what's up|good (morning|evening|afternoon))`,
all lowercase.  The regex is anchored at the start only (no trailing word
boundary), so `test` is a case-insensitive prefix check. -/
def smallTalkPatterns : List String :=
  ["hi", "hello", "hey", "how are you", "what" ++ sqS ++ "s up",
   "good morning", "good evening", "good afternoon"]

/-- String prefix test via character lists. -/
def strStartsWith (s p : String) : Bool := p.data.isPrefixOf s.data

/-- `SMALL_TALK.test(query)`: the case-insensitive regex matches iff the
lowercased query starts with one of the alternatives. -/
def smallTalkTest (query : String) : Bool :=
  smallTalkPatterns.any (fun p => strStartsWith (jsToLower query) p)

/-- `selectedSources.length === 0 && SMALL_TALK.test(query)` — the mode
selector used identically by the streaming and non-streaming paths. -/
def useGeneralChat (selectedSources : List String) (query : String) : Bool :=
  selectedSources.length == 0 && smallTalkTest query

/-- JSON values as produced by `JSON.parse`.  Numbers are kept as their
source lexeme: the query route never does arithmetic on parsed numbers. -/
inductive Json where
  | null : Json
  | bool (b : Bool) : Json
  | num (lexeme : String) : Json
  | str (s : String) : Json
  | arr (items : List Json) : Json
  | obj (members : List (String × Json)) : Json
deriving Repr

/-- A row returned by the vector-similarity SQL query
(`id, content, metadata, "sourceId", score`).  The `score` column (a
floating-point distance) is carried verbatim by the code and never
inspected, so it is omitted from the embedding. -/
structure RetrievalCandidate where
  id : String
  content : String
  metadata : Json
  sourceId : String
deriving Repr

/-- State threaded through the diversity-filter loops of `route.ts`:
the accepted list, the set of seen content fingerprints, and the
per-source accepted counts. -/
structure RankState where
  deduped : List RetrievalCandidate
  seen : List String
  perSource : String → Nat

/-- `maxPerSourceFirstPass` from `route.ts`. -/
def maxPerSourceFirstPass : Nat := 2

/-- First pass of the diversity filter: skip seen fingerprints, accept
while the candidate's source has fewer than `maxPerSourceFirstPass`
accepted entries, break once `topK` accepted.  A `continue` on a seen
fingerprint skips the break check, exactly as in the source loop. -/
def pass1 (topK : Nat) : List RetrievalCandidate → RankState → RankState
  | [], st => st
  | r :: rest, st =>
    let key := hashText r.content
    if key ∈ st.seen then pass1 topK rest st
    else
      let cnt := st.perSource r.sourceId
      let st' :=
        if cnt < maxPerSourceFirstPass then
          { deduped := st.deduped ++ [r], seen := key :: st.seen,
            perSource := fun s => if s = r.sourceId then cnt + 1 else st.perSource s }
        else st
      if topK ≤ st'.deduped.length then st' else pass1 topK rest st'

/-- Second pass (backfill): break at the top of each iteration once `topK`
reached, skip seen fingerprints, otherwise accept ignoring the per-source
cap. -/
def pass2 (topK : Nat) : List RetrievalCandidate → RankState → RankState
  | [], st => st
  | r :: rest, st =>
    if topK ≤ st.deduped.length then st
    else
      let key := hashText r.content
      if key ∈ st.seen then pass2 topK rest st
      else pass2 topK rest
        { deduped := st.deduped ++ [r], seen := key :: st.seen, perSource := st.perSource }

/-- The state both paths start from: empty list, empty set, all-zero map. -/
def initRankState : RankState := ⟨[], [], fun _ => 0⟩

/-- The complete diversity ranker of `route.ts`: pass 1, then pass 2 only
if fewer than `topK` were accepted. -/
def diversityRank (topK : Nat) (retrieved : List RetrievalCandidate) :
    List RetrievalCandidate :=
  let st1 := pass1 topK retrieved initRankState
  if st1.deduped.length < topK then (pass2 topK retrieved st1).deduped
  else st1.deduped

/-- JSON whitespace (space, tab, line feed, carriage return). -/
def isJsonWs (c : Char) : Bool :=
  c = ' ' || c = Char.ofNat 9 || c = Char.ofNat 10 || c = Char.ofNat 13

/-- Skip JSON whitespace. -/
def skipJsonWs (cs : List Char) : List Char := cs.dropWhile isJsonWs

/-- Hex digit value, for `\uXXXX` escapes. -/
def hexVal (c : Char) : Option Nat :=
  if c.isDigit then some (c.toNat - 48)
  else if 'a' ≤ c && c ≤ 'f' then some (c.toNat - 87)
  else if 'A' ≤ c && c ≤ 'F' then some (c.toNat - 55)
  else none

/-- Single-character JSON string escapes. -/
def escChar (c : Char) : Option Char :=
  if c = qC then some qC
  else if c = bsC then some bsC
  else if c = '/' then some '/'
  else if c = 'b' then some (Char.ofNat 8)
  else if c = 'f' then some (Char.ofNat 12)
  else if c = 'n' then some (Char.ofNat 10)
  else if c = 'r' then some (Char.ofNat 13)
  else if c = 't' then some (Char.ofNat 9)
  else none

/-- Parse the body of a JSON string literal (opening quote already
consumed); returns the decoded string and the remaining characters.
Raw control characters are rejected, as `JSON.parse` does. -/
def parseStringLit : List Char → Option (String × List Char)
  | [] => none
  | c :: rest =>
    if c = qC then some ("", rest)
    else if c = bsC then
      match rest with
      | [] => none
      | e :: rest2 =>
        if e = 'u' then
          match rest2 with
          | h1 :: h2 :: h3 :: h4 :: rest3 =>
            match hexVal h1, hexVal h2, hexVal h3, hexVal h4 with
            | some a, some b, some c3, some d =>
              match parseStringLit rest3 with
              | some (s, r) =>
                some (String.singleton (Char.ofNat (((a * 16 + b) * 16 + c3) * 16 + d)) ++ s, r)
              | none => none
            | _, _, _, _ => none
          | _ => none
        else
          match escChar e with
          | some ch =>
            match parseStringLit rest2 with
            | some (s, r) => some (String.singleton ch ++ s, r)
            | none => none
          | none => none
    else if c.toNat < 32 then none
    else
      match parseStringLit rest with
      | some (s, r) => some (String.singleton c ++ s, r)
      | none => none

/-- Parse the optional fraction part of a JSON number. -/
def parseFrac (cs : List Char) : Option (List Char × List Char) :=
  match cs with
  | c :: r =>
    if c = '.' then
      let ds := r.takeWhile Char.isDigit
      if ds.isEmpty then none else some (c :: ds, r.dropWhile Char.isDigit)
    else some ([], cs)
  | [] => some ([], cs)

/-- Parse the optional exponent part of a JSON number. -/
def parseExp (cs : List Char) : Option (List Char × List Char) :=
  match cs with
  | c :: r =>
    if c = 'e' || c = 'E' then
      let sgnR :=
        match r with
        | s :: r' => if s = '+' || s = '-' then ([s], r') else (([] : List Char), r)
        | [] => (([] : List Char), r)
      let ds := sgnR.2.takeWhile Char.isDigit
      if ds.isEmpty then none
      else some (c :: sgnR.1 ++ ds, sgnR.2.dropWhile Char.isDigit)
    else some ([], cs)
  | [] => some ([], cs)

/-- Parse the fraction-and-exponent tail of a JSON number; returns the
lexeme characters consumed and the rest. -/
def parseNumTail (cs : List Char) : Option (List Char × List Char) :=
  match parseFrac cs with
  | none => none
  | some (fchars, cs2) =>
    match parseExp cs2 with
    | none => none
    | some (echars, cs3) => some (fchars ++ echars, cs3)

/-- Parse a JSON number, returning its lexeme (leading zeros rejected as in
`JSON.parse`). -/
def parseNumber (cs : List Char) : Option (String × List Char) :=
  let (sgn, cs1) :=
    match cs with
    | c :: r => if c = '-' then ([c], r) else (([] : List Char), cs)
    | [] => (([] : List Char), cs)
  match cs1 with
  | [] => none
  | d :: _ =>
    if !d.isDigit then none
    else
      let ip := cs1.takeWhile Char.isDigit
      let cs2 := cs1.dropWhile Char.isDigit
      if 1 < ip.length && ip.head? = some '0' then none
      else
        match parseNumTail cs2 with
        | some (tail, cs3) => some (String.mk (sgn ++ ip ++ tail), cs3)
        | none => none

mutual

/-- Parse one JSON value.  `fuel` bounds the nesting depth; callers pass
`length + 2`, which exceeds any possible depth since every nested value
consumes at least one character. -/
def parseVal : Nat → List Char → Option (Json × List Char)
  | 0, _ => none
  | fuel + 1, cs =>
    let cs := skipJsonWs cs
    match cs with
    | [] => none
    | c :: rest =>
      if c = qC then
        match parseStringLit rest with
        | some (s, r) => some (.str s, r)
        | none => none
      else if cs.take 4 = ['t', 'r', 'u', 'e'] then some (.bool true, cs.drop 4)
      else if cs.take 5 = ['f', 'a', 'l', 's', 'e'] then some (.bool false, cs.drop 5)
      else if cs.take 4 = ['n', 'u', 'l', 'l'] then some (.null, cs.drop 4)
      else if c = lbC then
        match skipJsonWs rest with
        | [] => none
        | c2 :: r2 =>
          if c2 = rbC then some (.obj [], r2)
          else parseMembers fuel (c2 :: r2) []
      else if c = lbkC then
        match skipJsonWs rest with
        | [] => none
        | c2 :: r2 =>
          if c2 = rbkC then some (.arr [], r2)
          else parseItems fuel (c2 :: r2) []
      else
        match parseNumber cs with
        | some (lx, r) => some (.num lx, r)
        | none => none

/-- Parse the members of a JSON object after `{` (first member known to
start here). -/
def parseMembers : Nat → List Char → List (String × Json) →
    Option (Json × List Char)
  | 0, _, _ => none
  | fuel + 1, cs, acc =>
    match cs with
    | [] => none
    | c :: rest =>
      if c = qC then
        match parseStringLit rest with
        | some (k, r1) =>
          match skipJsonWs r1 with
          | c2 :: r2 =>
            if c2 = ':' then
              match parseVal fuel r2 with
              | some (v, r3) =>
                match skipJsonWs r3 with
                | c3 :: r4 =>
                  if c3 = ',' then parseMembers fuel (skipJsonWs r4) (acc ++ [(k, v)])
                  else if c3 = rbC then some (.obj (acc ++ [(k, v)]), r4)
                  else none
                | [] => none
              | none => none
            else none
          | [] => none
        | none => none
      else none

/-- Parse the items of a JSON array after `[` (first item known to start
here). -/
def parseItems : Nat → List Char → List Json → Option (Json × List Char)
  | 0, _, _ => none
  | fuel + 1, cs, acc =>
    match parseVal fuel cs with
    | some (v, r1) =>
      match skipJsonWs r1 with
      | c2 :: r2 =>
        if c2 = ',' then parseItems fuel r2 (acc ++ [v])
        else if c2 = rbkC then some (.arr (acc ++ [v]), r2)
        else none
      | [] => none
    | none => none

end

/-- `JSON.parse`: parse one value and insist the rest is whitespace. -/
def jsonParse (s : String) : Option Json :=
  match parseVal (s.length + 2) s.data with
  | some (j, rest) => if skipJsonWs rest = [] then some j else none
  | none => none

/-- Property access `j[k]` on a parsed value: only objects have fields;
with duplicate keys `JSON.parse` keeps the last one. -/
def getField (j : Json) (k : String) : Option Json :=
  match j with
  | .obj kvs => (kvs.reverse.find? (fun kv => kv.1 == k)).map (fun kv => kv.2)
  | _ => none

/-- JS truthiness of a parsed JSON value.  A numeric literal denotes zero
iff it has no nonzero digit. -/
def jsTruthy : Json → Bool
  | .null => false
  | .bool b => b
  | .num lx => lx.data.any (fun c => c.isDigit && c ≠ '0')
  | .str s => !(s == "")
  | .arr _ => true
  | .obj _ => true

mutual

/-- JS `String(v)` for a parsed JSON value.  Numeric lexemes are kept
verbatim (the route never stringifies parsed numbers on claim-relevant
paths). -/
def jsString : Json → String
  | .null => "null"
  | .bool b => if b then "true" else "false"
  | .num lx => lx
  | .str s => s
  | .obj _ => "[object Object]"
  | .arr l => jsStringArr l

/-- `Array.prototype.toString`: elements joined by commas, null elements
rendered empty. -/
def jsStringArr : List Json → String
  | [] => ""
  | [.null] => ""
  | [j] => jsString j
  | .null :: rest => "," ++ jsStringArr rest
  | j :: rest => jsString j ++ "," ++ jsStringArr rest

end

/-- JS `a || b` on strings (empty string is falsy). -/
def jsOrDefault (a b : String) : String := if a = "" then b else a

/-- JS `String.prototype.indexOf` for a single character (`-1` if absent). -/
def jsIndexOf (s : String) (c : Char) : Int :=
  match s.data.findIdx? (· == c) with
  | some i => (i : Int)
  | none => -1

/-- JS `String.prototype.lastIndexOf` for a single character. -/
def jsLastIndexOf (s : String) (c : Char) : Int :=
  match s.data.reverse.findIdx? (· == c) with
  | some i => (s.data.length : Int) - 1 - (i : Int)
  | none => -1

/-- JS `String.prototype.slice` with its negative-index semantics. -/
def jsSlice (s : String) (a b : Int) : String :=
  let len : Int := (s.data.length : Int)
  let clampIx := fun (i : Int) => ((if i < 0 then max (len + i) 0 else min i len).toNat)
  let st := clampIx a
  let en := clampIx b
  String.mk ((s.data.drop st).take (en - st))

/-- `String(json?.answer || "")`: the answer field if present and truthy,
otherwise the empty string. -/
def jsAnswerOrEmpty (j : Json) : String :=
  match getField j "answer" with
  | some v => if jsTruthy v then jsString v else ""
  | none => ""

/-- The guarded brace-slice parse used by the streaming RAG path and the
no-results branch: take `indexOf("{")` .. `lastIndexOf("}")`; if either is
`-1` the code throws/skips, i.e. no parsed value. -/
def braceParse (txt : String) : Option Json :=
  let s := jsIndexOf txt lbC
  let e := jsLastIndexOf txt rbC
  if s ≠ -1 && e ≠ -1 then jsonParse (jsSlice txt s (e + 1)) else none

/-- The unguarded brace-slice parse of the non-streaming path (no `-1`
check: a missing brace yields a degenerate slice that fails to parse). -/
def nsParseRaw (txt : String) : Option Json :=
  jsonParse (jsSlice txt (jsIndexOf txt lbC) (jsLastIndexOf txt rbC + 1))

/-- JS `\w`: `[A-Za-z0-9_]`. -/
def isWordCharJS (c : Char) : Bool :=
  ('a' ≤ c && c ≤ 'z') || ('A' ≤ c && c ≤ 'Z') || c.isDigit || c = '_'

/-- Anchored case-insensitive opener strip:
`replace(/^(Well,|So,|...)\s*/i, "")`. -/
def stripOpener (openers : List String) (s : String) : String :=
  match openers.find? (fun p => strStartsWith (jsToLower s) (jsToLower p)) with
  | some p => String.mk ((s.data.drop p.length).dropWhile isWsJS)
  | none => s

/-- Case-insensitive prefix match returning the remainder. -/
def ciPrefixDrop : List Char → List Char → Option (List Char)
  | [], cs => some cs
  | _ :: _, [] => none
  | a :: ps, c :: cs' => if a.toLower = c.toLower then ciPrefixDrop ps cs' else none

/-- Try each regex alternative at the current position; a match also needs
a trailing word boundary (every phrase ends in a word character). -/
def tryPhraseAt (phrases : List (List Char)) (cs : List Char) : Option (List Char) :=
  match phrases with
  | [] => none
  | p :: ps =>
    match ciPrefixDrop p cs with
    | some rest =>
      if (rest.head?.map isWordCharJS).getD false then tryPhraseAt ps cs else some rest
    | none => tryPhraseAt ps cs

/-- Global case-insensitive word-bounded phrase removal,
`replace(/\b(...)\b/gi, "")`.  `prevWord` tracks whether the previous
character was a word character (no leading `\b` there); every phrase
starts and ends with a word character.  Fuel: each step consumes at least
one character, so `length` fuel always suffices. -/
def stripPhrasesAux (phrases : List (List Char)) : Nat → Bool → List Char → List Char
  | 0, _, cs => cs
  | _ + 1, _, [] => []
  | fuel + 1, prevWord, c :: rest =>
    if prevWord then c :: stripPhrasesAux phrases fuel (isWordCharJS c) rest
    else
      match tryPhraseAt phrases (c :: rest) with
      | some rest' => stripPhrasesAux phrases fuel true rest'
      | none => c :: stripPhrasesAux phrases fuel (isWordCharJS c) rest

/-- Entry point for the word-bounded phrase removal. -/
def stripPhrases (phrases : List String) (s : String) : String :=
  String.mk (stripPhrasesAux (phrases.map String.data) s.data.length false s.data)

/-- `replace(/\s{2,}/g, " ")`: runs of two or more whitespace characters
become a single space; a lone whitespace character is kept as is. -/
def collapseWsRuns : Nat → List Char → List Char
  | 0, cs => cs
  | _ + 1, [] => []
  | fuel + 1, c :: rest =>
    if isWsJS c then
      match rest with
      | d :: _ =>
        if isWsJS d then ' ' :: collapseWsRuns fuel (rest.dropWhile isWsJS)
        else c :: collapseWsRuns fuel rest
      | [] => [c]
    else c :: collapseWsRuns fuel rest

/-- Sentence-ending punctuation class `[.!?]`. -/
def isPunctSent (c : Char) : Bool := c = '.' || c = '!' || c = '?'

/-- ASCII `[a-z]`. -/
def isAsciiLower (c : Char) : Bool := 'a' ≤ c && c ≤ 'z'

/-- `replace(/([.!?])\s*([a-z])/g, (m,p,l) => p + " " + l.toUpperCase())`. -/
def capAfterPunct : Nat → List Char → List Char
  | 0, cs => cs
  | _ + 1, [] => []
  | fuel + 1, c :: rest =>
    if isPunctSent c then
      match rest.dropWhile isWsJS with
      | d :: rest' =>
        if isAsciiLower d then c :: ' ' :: d.toUpper :: capAfterPunct fuel rest'
        else c :: capAfterPunct fuel rest
      | [] => c :: capAfterPunct fuel rest
    else c :: capAfterPunct fuel rest

/-- `replace(/([^.!?])\s*$/, "$1.")`: the first (hence earliest) match
whose tail is all whitespace; note the captured character may itself be a
whitespace character when the text ends in punctuation plus whitespace. -/
def ensureTerminal (s : String) : String :=
  match s.data with
  | [] => s
  | c0 :: _ =>
    let rev := s.data.reverse
    let trailWs := (rev.takeWhile isWsJS).reverse
    let core := rev.dropWhile isWsJS
    match core with
    | [] => String.mk [c0, '.']
    | c :: before =>
      if isPunctSent c then
        match trailWs with
        | [] => s
        | w :: _ => String.mk (before.reverse ++ [c, w, '.'])
      else String.mk (before.reverse ++ [c, '.'])

/-- The opener alternatives of the first replace in `enhanceResponse`. -/
def fillerOpeners : List String :=
  ["Well,", "So,", "Basically,", "In essence,", "To summarize,",
   "Based on the context,", "According to the sources,",
   "From the provided information,"]

/-- The phrase alternatives of the second replace in `enhanceResponse`. -/
def fillerPhrasesA : List String :=
  ["As I mentioned", "Like I said", "As we can see",
   "It" ++ sqS ++ "s worth noting that", "It should be noted that"]

/-- The phrase alternatives of the third replace in `enhanceResponse`. -/
def fillerPhrasesB : List String := ["In other words", "That is to say", "Put simply"]

/-- `enhanceResponse` from `lib/prompts.ts`: strip filler openers and
phrases, collapse whitespace runs, capitalise after sentence punctuation,
ensure terminal punctuation, trim. -/
def enhanceResponse (rawResponse : String) : String :=
  let s1 := stripOpener fillerOpeners rawResponse
  let s2 := stripPhrases fillerPhrasesA s1
  let s3 := stripPhrases fillerPhrasesB s2
  let s4 := collapseWsRuns s3.data.length s3.data
  let s5 := capAfterPunct s4.length s4
  jsTrim (ensureTerminal (String.mk s5))

/-- Stop words filtered out by `extractKeyTerms`. -/
def stopWordsKT : List String :=
  ["this", "that", "with", "from", "they", "have", "been", "were", "will",
   "would", "could", "should"]

/-- Split on whitespace runs, dropping empty fragments (JS's
`split(/\s+/)` can yield empty end fragments, which the length filter
below removes anyway). -/
def splitWsWords (cs : List Char) : List String :=
  let step := fun (c : Char) (acc : List String × String) =>
    if isWsJS c then
      if acc.2 = "" then acc else (acc.2 :: acc.1, "")
    else (acc.1, String.singleton c ++ acc.2)
  let r := cs.foldr step ([], "")
  if r.2 = "" then r.1 else r.2 :: r.1

/-- Count word frequencies preserving first-occurrence (insertion) order,
like `reduce` into a JS object. -/
def bumpCount (l : List (String × Nat)) (w : String) : List (String × Nat) :=
  match l with
  | [] => [(w, 1)]
  | (k, n) :: rest => if k = w then (k, n + 1) :: rest else (k, n) :: bumpCount rest w

/-- Stable insert for descending-count order (ties keep earlier-inserted
elements first, matching JS's stable `sort((a, b) => b - a)`). -/
def insertByCountDesc (x : String × Nat) : List (String × Nat) → List (String × Nat)
  | [] => [x]
  | y :: ys => if y.2 ≤ x.2 then x :: y :: ys else y :: insertByCountDesc x ys

/-- `extractKeyTerms` from `lib/prompts.ts`: lowercase, strip
non-word/non-space characters, split, filter short and stop words, count,
sort by frequency descending (stable), take the top five. -/
def extractKeyTerms (context : String) : List String :=
  let cleaned := (jsToLower context).data.map
    (fun c => if isWordCharJS c || isWsJS c then c else ' ')
  let ws := (splitWsWords cleaned).filter
    (fun w => 4 < w.length && !(stopWordsKT.contains w))
  let freq := ws.foldl bumpCount []
  ((freq.foldr insertByCountDesc []).take 5).map (fun kv => kv.1)

/-- Substring search over character lists. -/
def containsSub (needle : List Char) : List Char → Bool
  | [] => needle.isEmpty
  | c :: rest => needle.isPrefixOf (c :: rest) || containsSub needle rest

/-- JS `String.prototype.includes`. -/
def strIncludes (hay needle : String) : Bool := containsSub needle.data hay.data

/-- `generateStrategicFollowups` from `lib/prompts.ts`. -/
def generateStrategicFollowups (query context : String) : List String :=
  let queryLower := jsToLower query
  let contextTerms := extractKeyTerms context
  if strIncludes queryLower "how" then
    ["What tools are recommended for " ++
       jsOrDefault (contextTerms.headD "") "this process" ++ "?",
     "What are common challenges when implementing this?",
     "Can you show me examples from the sources?"]
  else if strIncludes queryLower "what" then
    ["How does this compare to alternative approaches?",
     "What are the key benefits and limitations?",
     "What implementation steps should I consider?"]
  else if strIncludes queryLower "why" then
    ["What evidence supports this approach?",
     "How do other organizations handle this?",
     "What are the potential risks or drawbacks?"]
  else if strIncludes queryLower "when" || strIncludes queryLower "timing" then
    ["What factors determine the right timing?",
     "What preparation is needed beforehand?",
     "How do I know if conditions are right?"]
  else
    ["What related information is available in my sources?",
     "How can I apply this knowledge practically?",
     "What additional context should I consider?"]

/-- `r.metadata || {}` when building citations. -/
def jsMetaOrEmpty (m : Json) : Json := if jsTruthy m then m else .obj []

/-- A citation as built per-query by both paths:
`{ id, index: i + 1, metadata: r.metadata || {}, sourceId }`. -/
structure Citation where
  id : String
  index : Nat
  metadata : Json
  sourceId : String
deriving Repr

/-- The enumerated context block:
`deduped.map((r, i) => "(" + (i+1) + ") " + r.content).join("\n\n")`. -/
def mkContext (dd : List RetrievalCandidate) : String :=
  String.intercalate "\n\n"
    (dd.enum.map (fun p => "(" ++ toString (p.1 + 1) ++ ") " ++ p.2.content))

/-- The citation list for a ranked evidence set. -/
def mkCitations (dd : List RetrievalCandidate) : List Citation :=
  dd.enum.map (fun p => ⟨p.2.id, p.1 + 1, jsMetaOrEmpty p.2.metadata, p.2.sourceId⟩)

/-- Streaming events written to the response stream.  `followups` is the
raw JSON value the code serialises (model-supplied follow-ups are not
re-validated element-wise). -/
inductive Event where
  | thinking : Event
  | searching : Event
  | generating (citations : List Citation) : Event
  | token (content userMessageId : String) : Event
  | complete (message : String) (citations : List Citation) (followups : Json) : Event
  | error (message : String) : Event
deriving Repr

/-- Observable steps of one query: persistence writes, collaborator calls
(embedding, vector search, generation) and emitted stream events, in
program order. -/
inductive Step where
  | persistUser (sessionId message : String) : Step
  | persistAssistant (sessionId message : String) (citations : Option (List Citation)) : Step
  | callEmbed (text : String) : Step
  | callSearch (selectedSources : List String) : Step
  | callGenerate : Step
  | callGenerateStream : Step
  | emit (e : Event) : Step
deriving Repr

/-- External collaborator responses for one request: the similarity-ordered
retrieval result and the LLM outputs at each call site. -/
structure Oracle where
  retrieved : List RetrievalCandidate
  generalDeltas : List String
  ragDeltas : List String
  noResultsInvoke : String
  generalInvoke : String
  ragInvoke : String

/-- Token events for a delta stream: `if (chunk.content)` skips empty
deltas both for accumulation and emission. -/
def tokenEvents (deltas : List String) (userMessageId : String) : List Event :=
  (deltas.filter (fun d => !(d == ""))).map (fun d => .token d userMessageId)

/-- The same, as trace steps. -/
def tokenSteps (deltas : List String) (uid : String) : List Step :=
  (tokenEvents deltas uid).map Step.emit

/-- Follow-ups for the streaming RAG success path:
`Array.isArray(json?.followups) && json.followups.length > 0 ?
json.followups.slice(0, 3) : generateStrategicFollowups(query, ctx).slice(0, 3)`. -/
def streamFollowups (j : Json) (query context : String) : Json :=
  match getField j "followups" with
  | some (.arr l) =>
    if 0 < l.length then .arr (l.take 3)
    else .arr (((generateStrategicFollowups query context).take 3).map Json.str)
  | _ => .arr (((generateStrategicFollowups query context).take 3).map Json.str)

/-- Outcome of the streaming RAG parse/repair block (lines 399-450 of
`route.ts`): on a successful brace-slice parse, the enhanced answer and
(possibly heuristic) follow-ups; otherwise the enhanced raw trimmed text
(or a fixed message when blank) and heuristic follow-ups. -/
def ragParsed (query context full : String) : String × Json :=
  match braceParse full with
  | some j => (enhanceResponse (jsAnswerOrEmpty j), streamFollowups j query context)
  | none =>
    (enhanceResponse (jsOrDefault (jsTrim full) "I had trouble processing the response."),
     .arr (((generateStrategicFollowups query "").take 3).map Json.str))

/-- Canned follow-ups of the streaming general-chat path. -/
def generalChatFollowups : Json :=
  .arr [.str "What would you like to know more about?",
        .str "How can I help you with your documents?",
        .str "Do you have any specific questions about your sources?"]

/-- Default `parsed` object of the scoped no-results branch (note the
source uses a typographic apostrophe here). -/
def noResultsDefaultAnswer : String := "I couldn’t find that in your sources."

/-- The `let parsed = { answer: ..., followups: [] }` initial value. -/
def noResultsDefaultParsed : Json :=
  .obj [("answer", .str noResultsDefaultAnswer), ("followups", .arr [])]

/-- User-safe message of the streaming catch-all error event. -/
def streamErrorMessage : String :=
  "I encountered an issue while searching. Please try again."

/-- `.slice(0, 3)` on an arbitrary JS value: defined for arrays and
strings, a `TypeError` otherwise (including `undefined`). -/
def sliceFollowups : Option Json → Option Json
  | some (.arr l) => some (.arr (l.take 3))
  | some (.str s) => some (.str (String.mk (s.data.take 3)))
  | _ => none

/-- Streaming general-chat branch: `thinking`, stream, tokens, persist the
enhanced full text, `complete` with canned follow-ups. -/
def generalChatStreamTrace (sessionId uid : String) (o : Oracle) : List Step :=
  let enhanced := enhanceResponse (jsTrim (String.join o.generalDeltas))
  [.emit .thinking, .callGenerateStream] ++ tokenSteps o.generalDeltas uid ++
  [.persistAssistant sessionId enhanced (some []),
   .emit (.complete enhanced [] generalChatFollowups)]

/-- Streaming RAG branch with non-empty ranked evidence. -/
def ragStreamTrace (sessionId query uid : String) (deduped : List RetrievalCandidate)
    (o : Oracle) : List Step :=
  let context := mkContext deduped
  let citations := mkCitations deduped
  let pr := ragParsed query context (String.join o.ragDeltas)
  [.emit (.generating citations), .callGenerateStream] ++ tokenSteps o.ragDeltas uid ++
  [.persistAssistant sessionId pr.1 (some citations),
   .emit (.complete pr.1 citations pr.2)]

/-- Streaming scoped no-results branch: one atomic generation with the
dedicated no-results prompt, inner try/catch around the brace-slice parse
(default object on failure), then `enhanceResponse(parsed.answer)` (a
`TypeError` reaching the outer catch when `answer` is not a string),
persist, then the `complete` event whose follow-ups are
`parsed.followups.slice(0, 3)` (a `TypeError` after persistence when
`followups` is not sliceable). -/
def scopedNoResultsTrace (sessionId : String) (o : Oracle) : List Step :=
  let parsed := (braceParse o.noResultsInvoke).getD noResultsDefaultParsed
  .callGenerate ::
  (match getField parsed "answer" with
   | some (.str a) =>
     let msg := enhanceResponse a
     .persistAssistant sessionId msg (some []) ::
     (match sliceFollowups (getField parsed "followups") with
      | some f => [.emit (.complete msg [] f)]
      | none => [.emit (.error streamErrorMessage)])
   | _ => [.emit (.error streamErrorMessage)])

/-- Streaming unscoped no-results branch: fall back to a general-chat
style streamed response with strategic follow-ups. -/
def generalFallbackTrace (sessionId query uid : String) (o : Oracle) : List Step :=
  let enhanced := enhanceResponse (jsTrim (String.join o.generalDeltas))
  .callGenerateStream :: tokenSteps o.generalDeltas uid ++
  [.persistAssistant sessionId enhanced (some []),
   .emit (.complete enhanced []
     (.arr (((generateStrategicFollowups query "").take 3).map Json.str)))]

/-- `processStreamingQuery` as a trace of observable steps. -/
def processStreamingTrace (sessionId query : String) (selectedSources : List String)
    (topK : Nat) (uid : String) (o : Oracle) : List Step :=
  if useGeneralChat selectedSources query then
    generalChatStreamTrace sessionId uid o
  else
    [.emit .searching, .callEmbed query, .callSearch selectedSources] ++
    (let deduped := diversityRank topK o.retrieved
     if 0 < deduped.length then ragStreamTrace sessionId query uid deduped o
     else if 0 < selectedSources.length then scopedNoResultsTrace sessionId o
     else generalFallbackTrace sessionId query uid o)

/-- Canned non-streaming empty-evidence answer, explicit scope. -/
def nsScopedCanned : String :=
  "I couldn" ++ sqS ++ "t find relevant information in the selected sources."

/-- Canned non-streaming empty-evidence answer, unscoped. -/
def nsUnscopedCanned : String :=
  "I couldn" ++ sqS ++ "t find relevant information in your sources."

/-- The non-streaming parse step (lines 712-722): unguarded brace slice,
then `answer = String(json?.answer || "")` and
`followups = Array.isArray(json?.followups) ? json.followups : []`;
on any parse failure a fixed fallback message and no follow-ups. -/
def nsParse (txt : String) : String × List Json :=
  match nsParseRaw txt with
  | some j =>
    (jsAnswerOrEmpty j,
     match getField j "followups" with
     | some (.arr l) => l
     | _ => [])
  | none => ("I had trouble processing the response. Please try again.", [])

/-- The JSON body returned by the non-streaming path (the fields derived
from this request; `userMessage` / `chatMessage` records echo the
persisted turns). -/
structure NSResponse where
  answer : String
  citations : List Citation
  retrievedChunks : List RetrievalCandidate
  followups : List Json
  searchMode : String
  sourcesUsed : Nat
deriving Repr

/-- `processNonStreamingQuery` as a trace plus its response body.  The
assistant persistence of this path omits the citations field. -/
def processNonStreamingTrace (sessionId query : String) (selectedSources : List String)
    (topK : Nat) (o : Oracle) : List Step × NSResponse :=
  let searchMode := if selectedSources.length == 0 then "all" else "selected"
  if useGeneralChat selectedSources query then
    let answer := jsTrim o.generalInvoke
    ([.callGenerate, .persistAssistant sessionId answer none],
     ⟨answer, [], [], [], searchMode, selectedSources.length⟩)
  else
    let deduped := diversityRank topK o.retrieved
    if deduped.length == 0 then
      let answer := if 0 < selectedSources.length then nsScopedCanned else nsUnscopedCanned
      ([.callEmbed query, .callSearch selectedSources,
        .persistAssistant sessionId answer none],
       ⟨answer, [], deduped, [], searchMode, selectedSources.length⟩)
    else
      let citations := mkCitations deduped
      let pr := nsParse o.ragInvoke
      ([.callEmbed query, .callSearch selectedSources, .callGenerate,
        .persistAssistant sessionId pr.1 none],
       ⟨pr.1, citations, deduped, pr.2, searchMode, selectedSources.length⟩)

/-- The request body after the coercions at the top of `POST`
(`String(body?.sessionId || "")` etc.). -/
structure QueryBody where
  sessionId : String
  query : String
  selectedSources : List String
  streaming : Bool
  topK : Nat

/-- The HTTP-level outcome of `POST /api/query`. -/
inductive PostResult where
  | badRequest (error : String) : PostResult
  | streamResponse : PostResult
  | jsonResponse (r : NSResponse) : PostResult

/-- `POST /api/query`: validate, persist the user turn, then dispatch to
the streaming or non-streaming processor. -/
def POST (b : QueryBody) (uid : String) (o : Oracle) : List Step × PostResult :=
  if b.sessionId = "" then ([], .badRequest "sessionId required")
  else if b.query = "" then ([], .badRequest "query required")
  else if b.streaming then
    (.persistUser b.sessionId b.query ::
       processStreamingTrace b.sessionId b.query b.selectedSources b.topK uid o,
     .streamResponse)
  else
    let pr := processNonStreamingTrace b.sessionId b.query b.selectedSources b.topK o
    (.persistUser b.sessionId b.query :: pr.1, .jsonResponse pr.2)

/-- A workspace row (`Session` table). -/
structure Session where
  id : String
  name : String
  description : String
deriving Repr, DecidableEq

/-- `GET /api/session`: find the workspace named "My Notebook", creating
it when absent.  The table is modelled as an insertion-ordered list;
`findFirst` is `List.find?`; `freshId` is the id the database would assign
to a newly created row. -/
def sessionGET (db : List Session) (freshId : String) : Session × List Session :=
  match db.find? (fun s => s.name == "My Notebook") with
  | some s => (s, db)
  | none =>
    let s : Session := ⟨freshId, "My Notebook", "This is my notebook"⟩
    (s, db ++ [s])

/-- Project the emitted events out of a trace. -/
def eventsOf (tr : List Step) : List Event :=
  tr.filterMap (fun s => match s with | .emit e => some e | _ => none)

/-- Terminal stream events. -/
def isTerminal : Event → Bool
  | .complete _ _ _ => true
  | .error _ => true
  | _ => false

/-- Assistant-turn persistence steps. -/
def isPersistAssistant : Step → Bool
  | .persistAssistant _ _ _ => true
  | _ => false

/-- Token-emission steps. -/
def isTokenEmit : Step → Bool
  | .emit (.token _ _) => true
  | _ => false

/-- Generation (LLM) call steps. -/
def isGenerationCall : Step → Bool
  | .callGenerate => true
  | .callGenerateStream => true
  | _ => false

/-- Retrieval steps (query embedding or vector search). -/
def isRetrievalStep : Step → Bool
  | .callEmbed _ => true
  | .callSearch _ => true
  | _ => false

/-- Whether a trace touches retrieval at all. -/
def hasRetrievalStep (tr : List Step) : Bool := tr.any isRetrievalStep

/-- After the first assistant persistence, no further token emission,
assistant persistence or generation call occurs: the assistant turn is
written only once the answer is fully determined. -/
def wellSequenced : List Step → Bool
  | [] => true
  | s :: rest =>
    if isPersistAssistant s then
      rest.all (fun t => !isTokenEmit t && !isPersistAssistant t && !isGenerationCall t)
    else wellSequenced rest

/-- Emitted `error` events, as steps. -/
def isErrorEmit : Step → Bool
  | .emit (.error _) => true
  | _ => false

/-- `complete` events. -/
def isCompleteEvent : Event → Bool
  | .complete _ _ _ => true
  | _ => false

/-- After an emitted `error` event, no assistant turn is persisted. -/
def noPersistAfterError : List Step → Bool
  | [] => true
  | .emit (.error _) :: rest => rest.all (fun t => !isPersistAssistant t)
  | _ :: rest => noPersistAfterError rest

/-- The well-formed structured model response used as the round-trip test
vector: a JSON object with an `answer` carrying a citation marker and two
follow-ups. -/
def c8json : String := "\x7b\"answer\":\"X [1]\",\"followups\":[\"a\",\"b\"]\x7d"

/-- Deduplication invariant of the filter state: every accepted entry's
fingerprint has been recorded, and no two accepted entries share a
fingerprint. -/
def RankInv (st : RankState) : Prop :=
  (∀ r ∈ st.deduped, hashText r.content ∈ st.seen) ∧
  st.deduped.Pairwise (fun a b => hashText a.content ≠ hashText b.content)

/-- Per-source bookkeeping invariant of pass 1: the counter map is exact
and never exceeds the cap. -/
def CapInv (st : RankState) : Prop :=
  (∀ s, (st.deduped.filter (fun r => r.sourceId == s)).length = st.perSource s) ∧
  (∀ s, st.perSource s ≤ maxPerSourceFirstPass)

theorem pass1_length_le (topK : Nat) (l : List RetrievalCandidate) :
    ∀ st : RankState, st.deduped.length < topK →
      (pass1 topK l st).deduped.length ≤ topK := by
  induction l with
  | nil => intro st h; exact Nat.le_of_lt h
  | cons r rest ih =>
    intro st h
    by_cases hseen : hashText r.content ∈ st.seen
    · simp only [pass1, if_pos hseen]
      exact ih st h
    · simp only [pass1, if_neg hseen]
      by_cases hcnt : st.perSource r.sourceId < maxPerSourceFirstPass
      · simp only [if_pos hcnt]
        by_cases hfull : topK ≤ (st.deduped ++ [r]).length
        · simp only [if_pos hfull]
          simp only [List.length_append, List.length_singleton]
          omega
        · simp only [if_neg hfull]
          refine ih _ ?_
          simp only [List.length_append, List.length_singleton] at hfull ⊢
          omega
      · simp only [if_neg hcnt]
        by_cases hfull : topK ≤ st.deduped.length
        · omega
        · simp only [if_neg hfull]
          exact ih st h

theorem pass2_length_le (topK : Nat) (l : List RetrievalCandidate) :
    ∀ st : RankState, st.deduped.length ≤ topK →
      (pass2 topK l st).deduped.length ≤ topK := by
  induction l with
  | nil => intro st h; exact h
  | cons r rest ih =>
    intro st h
    by_cases hfull : topK ≤ st.deduped.length
    · simp only [pass2, if_pos hfull]
      exact h
    · simp only [pass2, if_neg hfull]
      by_cases hseen : hashText r.content ∈ st.seen
      · simp only [if_pos hseen]
        exact ih st h
      · simp only [if_neg hseen]
        refine ih _ ?_
        simp only [List.length_append, List.length_singleton]
        omega

theorem pass1_rankInv (topK : Nat) (l : List RetrievalCandidate) :
    ∀ st : RankState, RankInv st → RankInv (pass1 topK l st) := by
  induction l with
  | nil => intro st h; exact h
  | cons r rest ih =>
    intro st h
    by_cases hseen : hashText r.content ∈ st.seen
    · simp only [pass1, if_pos hseen]
      exact ih st h
    · simp only [pass1, if_neg hseen]
      by_cases hcnt : st.perSource r.sourceId < maxPerSourceFirstPass
      · simp only [if_pos hcnt]
        have hst' : RankInv ⟨st.deduped ++ [r], hashText r.content :: st.seen,
            fun s => if s = r.sourceId then st.perSource r.sourceId + 1 else st.perSource s⟩ := by
          constructor
          · intro x hx
            rcases List.mem_append.mp hx with hx | hx
            · exact List.mem_cons_of_mem _ (h.1 x hx)
            · simp only [List.mem_singleton] at hx
              subst hx
              exact List.mem_cons_self _ _
          · refine List.pairwise_append.mpr ⟨h.2, List.pairwise_singleton _ _, ?_⟩
            intro a ha b hb
            simp only [List.mem_singleton] at hb
            subst hb
            intro heq
            exact hseen (heq ▸ h.1 a ha)
        split
        · exact hst'
        · exact ih _ hst'
      · simp only [if_neg hcnt]
        split
        · exact h
        · exact ih st h

theorem pass2_rankInv (topK : Nat) (l : List RetrievalCandidate) :
    ∀ st : RankState, RankInv st → RankInv (pass2 topK l st) := by
  induction l with
  | nil => intro st h; exact h
  | cons r rest ih =>
    intro st h
    by_cases hfull : topK ≤ st.deduped.length
    · simp only [pass2, if_pos hfull]; exact h
    · simp only [pass2, if_neg hfull]
      by_cases hseen : hashText r.content ∈ st.seen
      · simp only [if_pos hseen]; exact ih st h
      · simp only [if_neg hseen]
        refine ih _ ?_
        constructor
        · intro x hx
          rcases List.mem_append.mp hx with hx | hx
          · exact List.mem_cons_of_mem _ (h.1 x hx)
          · simp only [List.mem_singleton] at hx
            subst hx
            exact List.mem_cons_self _ _
        · refine List.pairwise_append.mpr ⟨h.2, List.pairwise_singleton _ _, ?_⟩
          intro a ha b hb
          simp only [List.mem_singleton] at hb
          subst hb
          intro heq
          exact hseen (heq ▸ h.1 a ha)

theorem pass1_capInv (topK : Nat) (l : List RetrievalCandidate) :
    ∀ st : RankState, CapInv st → CapInv (pass1 topK l st) := by
  induction l with
  | nil => intro st h; exact h
  | cons r rest ih =>
    intro st h
    by_cases hseen : hashText r.content ∈ st.seen
    · simp only [pass1, if_pos hseen]; exact ih st h
    · simp only [pass1, if_neg hseen]
      by_cases hcnt : st.perSource r.sourceId < maxPerSourceFirstPass
      · simp only [if_pos hcnt]
        have hst' : CapInv ⟨st.deduped ++ [r], hashText r.content :: st.seen,
            fun s => if s = r.sourceId then st.perSource r.sourceId + 1 else st.perSource s⟩ := by
          constructor
          · intro s
            rw [List.filter_append, List.length_append, h.1 s]
            by_cases hs : r.sourceId = s
            · subst hs
              simp [List.filter_cons]
            · simp [List.filter_cons, beq_eq_false_iff_ne.mpr hs, Ne.symm hs]
          · intro s
            by_cases hs : s = r.sourceId
            · simp only [if_pos hs]; omega
            · simp only [if_neg hs]; exact h.2 s
        split
        · exact hst'
        · exact ih _ hst'
      · simp only [if_neg hcnt]
        split
        · exact h
        · exact ih st h

/-- Claim C1: for every similarity-ordered candidate list and positive K
(topK, default 8), the Diversity Ranker output has length at most K, no two
output entries share a content fingerprint (`hashText` of the lowercased
whitespace-collapsed text), pass 1 accepts at most the per-source cap of 2
entries per source, and whenever pass 1 already accepted K entries the
output is exactly the pass-1 output (pass 2 runs only below K). -/
theorem C1_diversity_ranker_bounds (topK : Nat) (l : List RetrievalCandidate)
    (h : 0 < topK) :
    (diversityRank topK l).length ≤ topK ∧
    (diversityRank topK l).Pairwise (fun a b => hashText a.content ≠ hashText b.content) ∧
    (∀ s, ((pass1 topK l initRankState).deduped.filter
        (fun r => r.sourceId == s)).length ≤ maxPerSourceFirstPass) ∧
    (topK ≤ (pass1 topK l initRankState).deduped.length →
      diversityRank topK l = (pass1 topK l initRankState).deduped) := by
  have hinit : RankInv initRankState := by
    constructor
    · intro r hr; simp [initRankState] at hr
    · simp [initRankState, RankInv]
  have hcapinit : CapInv initRankState := by
    constructor
    · intro s; simp [initRankState]
    · intro s; simp [initRankState, maxPerSourceFirstPass]
  have h1len : (pass1 topK l initRankState).deduped.length ≤ topK :=
    pass1_length_le topK l initRankState (by simpa [initRankState] using h)
  have h1inv : RankInv (pass1 topK l initRankState) := pass1_rankInv topK l _ hinit
  have h1cap : CapInv (pass1 topK l initRankState) := pass1_capInv topK l _ hcapinit
  refine ⟨?_, ?_, ?_, ?_⟩
  · simp only [diversityRank]
    split
    · exact pass2_length_le topK l _ h1len
    · exact h1len
  · simp only [diversityRank]
    split
    · exact (pass2_rankInv topK l _ h1inv).2
    · exact h1inv.2
  · intro s
    rw [h1cap.1 s]
    exact h1cap.2 s
  · intro hge
    simp only [diversityRank]
    rw [if_neg (by omega)]

/-- Witness for C1 at K = 8 on a concrete three-candidate list. -/
theorem C1_diversity_ranker_bounds_witness :
    0 < 8 ∧
    ((diversityRank 8 [⟨"d1", "alpha", .null, "s1"⟩, ⟨"d2", "beta", .null, "s1"⟩,
        ⟨"d3", "gamma", .null, "s2"⟩]).length ≤ 8 ∧
     (diversityRank 8 [⟨"d1", "alpha", .null, "s1"⟩, ⟨"d2", "beta", .null, "s1"⟩,
        ⟨"d3", "gamma", .null, "s2"⟩]).Pairwise
       (fun a b => hashText a.content ≠ hashText b.content) ∧
     (∀ s, ((pass1 8 [⟨"d1", "alpha", .null, "s1"⟩, ⟨"d2", "beta", .null, "s1"⟩,
        ⟨"d3", "gamma", .null, "s2"⟩] initRankState).deduped.filter
         (fun r => r.sourceId == s)).length ≤ maxPerSourceFirstPass) ∧
     (8 ≤ (pass1 8 [⟨"d1", "alpha", .null, "s1"⟩, ⟨"d2", "beta", .null, "s1"⟩,
        ⟨"d3", "gamma", .null, "s2"⟩] initRankState).deduped.length →
       diversityRank 8 [⟨"d1", "alpha", .null, "s1"⟩, ⟨"d2", "beta", .null, "s1"⟩,
        ⟨"d3", "gamma", .null, "s2"⟩] =
       (pass1 8 [⟨"d1", "alpha", .null, "s1"⟩, ⟨"d2", "beta", .null, "s1"⟩,
        ⟨"d3", "gamma", .null, "s2"⟩] initRankState).deduped)) :=
  ⟨by decide, C1_diversity_ranker_bounds 8 _ (by decide)⟩

theorem tokenSteps_any_false (p : Step → Bool)
    (hp : ∀ c u, p (.emit (.token c u)) = false) (ds : List String) (uid : String) :
    (tokenSteps ds uid).any p = false := by
  rw [List.any_eq_false]
  intro s hs
  simp only [tokenSteps, tokenEvents, List.mem_map] at hs
  obtain ⟨e, ⟨d, _, rfl⟩, rfl⟩ := hs
  simp [hp]

theorem tokenSteps_all_true (p : Step → Bool)
    (hp : ∀ c u, p (.emit (.token c u)) = true) (ds : List String) (uid : String) :
    (tokenSteps ds uid).all p = true := by
  rw [List.all_eq_true]
  intro s hs
  simp only [tokenSteps, tokenEvents, List.mem_map] at hs
  obtain ⟨e, ⟨d, _, rfl⟩, rfl⟩ := hs
  simp [hp]

theorem eventsOf_append (l1 l2 : List Step) :
    eventsOf (l1 ++ l2) = eventsOf l1 ++ eventsOf l2 := by
  simp [eventsOf, List.filterMap_append]

theorem eventsOf_map_emit (evs : List Event) :
    eventsOf (evs.map Step.emit) = evs := by
  induction evs with
  | nil => rfl
  | cons e t ih =>
    simp only [eventsOf, List.map_cons, List.filterMap_cons] at ih ⊢
    rw [ih]

theorem eventsOf_tokenSteps (ds : List String) (uid : String) :
    eventsOf (tokenSteps ds uid) = tokenEvents ds uid :=
  eventsOf_map_emit _

theorem tokenEvents_filter_terminal (ds : List String) (uid : String) :
    (tokenEvents ds uid).filter isTerminal = [] := by
  rw [List.filter_eq_nil_iff]
  intro e he
  simp only [tokenEvents, List.mem_map] at he
  obtain ⟨d, _, rfl⟩ := he
  simp [isTerminal]

theorem tokenEvents_uid (ds : List String) (uid : String) (c u : String)
    (h : Event.token c u ∈ tokenEvents ds uid) : u = uid := by
  simp only [tokenEvents, List.mem_map] at h
  obtain ⟨d, _, hd⟩ := h
  cases hd
  rfl

/-- Claim C2: mode selection is a pure function of the query text and of
whether an explicit source scope is present; `selectedSources = []` with
query "hello" selects General-Chat, while `selectedSources = ["s1"]` with
"hello" attempts retrieval (the streaming trace contains an embed step),
and the General-Chat trace contains no retrieval step. -/
theorem C2_mode_selection :
    useGeneralChat [] "hello" = true ∧
    useGeneralChat ["s1"] "hello" = false ∧
    (∀ (ss ss' : List String) (q : String),
      (ss.length == 0) = (ss'.length == 0) →
      useGeneralChat ss q = useGeneralChat ss' q) ∧
    (∀ (sid uid : String) (topK : Nat) (o : Oracle),
      hasRetrievalStep (processStreamingTrace sid "hello" ["s1"] topK uid o) = true) ∧
    (∀ (sid uid : String) (topK : Nat) (o : Oracle),
      hasRetrievalStep (processStreamingTrace sid "hello" [] topK uid o) = false) := by
  refine ⟨by decide, by decide, ?_, ?_, ?_⟩
  · intro ss ss' q hlen
    simp only [useGeneralChat, hlen]
  · intro sid uid topK o
    have hg : useGeneralChat ["s1"] "hello" = false := by decide
    simp [processStreamingTrace, hg, hasRetrievalStep, isRetrievalStep]
  · intro sid uid topK o
    have hg : useGeneralChat [] "hello" = true := by decide
    simp only [processStreamingTrace, hg, if_true, hasRetrievalStep,
      generalChatStreamTrace, List.any_append, List.any_cons, List.any_nil]
    rw [tokenSteps_any_false isRetrievalStep (fun c u => rfl)]
    simp [isRetrievalStep]

/-- Witness for C2 extracting the two concrete mode decisions. -/
theorem C2_mode_selection_witness :
    useGeneralChat [] "hello" = true ∧ useGeneralChat ["s1"] "hello" = false :=
  ⟨C2_mode_selection.1, C2_mode_selection.2.1⟩

/-- Claim C7: a request with a missing workspace id or empty query text is
rejected with a direct validation error before any persistence: the step
trace is empty (no user turn, no assistant turn, no other state). -/
theorem C7_validation_rejects_before_persistence (b : QueryBody) (uid : String)
    (o : Oracle) (h : b.sessionId = "" ∨ b.query = "") :
    (POST b uid o).1 = [] ∧
    ((POST b uid o).2 = .badRequest "sessionId required" ∨
     (POST b uid o).2 = .badRequest "query required") := by
  by_cases hs : b.sessionId = ""
  · simp [POST, hs]
  · rcases h with h | h
    · exact absurd h hs
    · simp [POST, hs, h]

/-- Witness for C7 at a concrete body with empty session id. -/
theorem C7_validation_rejects_before_persistence_witness :
    (("" : String) = "" ∨ ("hello" : String) = "") ∧
    ((POST ⟨"", "hello", [], true, 8⟩ "u1"
        ⟨[], [], [], "", "", ""⟩).1 = [] ∧
     ((POST ⟨"", "hello", [], true, 8⟩ "u1" ⟨[], [], [], "", "", ""⟩).2 =
        .badRequest "sessionId required" ∨
      (POST ⟨"", "hello", [], true, 8⟩ "u1" ⟨[], [], [], "", "", ""⟩).2 =
        .badRequest "query required")) :=
  ⟨Or.inl rfl,
   C7_validation_rejects_before_persistence ⟨"", "hello", [], true, 8⟩ "u1"
     ⟨[], [], [], "", "", ""⟩ (Or.inl rfl)⟩

/-- Claim C9: the default-workspace get-or-create is idempotent — when no
"My Notebook" workspace exists exactly one is created, and every
subsequent invocation returns the existing workspace without creating
another. -/
theorem C9_default_workspace_idempotent (db : List Session) (i j : String) :
    (db.find? (fun s => s.name == "My Notebook") = none →
      (sessionGET db i).2 = db ++ [⟨i, "My Notebook", "This is my notebook"⟩] ∧
      (sessionGET db i).1 = ⟨i, "My Notebook", "This is my notebook"⟩) ∧
    (∀ s0, db.find? (fun s => s.name == "My Notebook") = some s0 →
      (sessionGET db i).2 = db ∧ (sessionGET db i).1 = s0) ∧
    (sessionGET ((sessionGET db i).2) j).2 = (sessionGET db i).2 ∧
    (sessionGET ((sessionGET db i).2) j).1 = (sessionGET db i).1 := by
  cases hfind : db.find? (fun s => s.name == "My Notebook") with
  | none =>
    have h1 : sessionGET db i =
        (⟨i, "My Notebook", "This is my notebook"⟩,
         db ++ [⟨i, "My Notebook", "This is my notebook"⟩]) := by
      simp [sessionGET, hfind]
    have h2 : (db ++ [(⟨i, "My Notebook", "This is my notebook"⟩ : Session)]).find?
        (fun s => s.name == "My Notebook") =
        some ⟨i, "My Notebook", "This is my notebook"⟩ := by
      rw [List.find?_append, hfind]
      simp
    refine ⟨fun _ => ⟨by rw [h1], by rw [h1]⟩, fun s0 hs0 => by simp at hs0, ?_, ?_⟩
    · rw [h1]; simp [sessionGET, h2]
    · rw [h1]; simp [sessionGET, h2]
  | some s0 =>
    have h1 : sessionGET db i = (s0, db) := by simp [sessionGET, hfind]
    refine ⟨fun hn => by simp at hn, fun s1 hs1 => ?_, ?_, ?_⟩
    · cases hs1; exact ⟨by rw [h1], by rw [h1]⟩
    · rw [h1]; simp [sessionGET, hfind]
    · rw [h1]; simp [sessionGET, hfind]

/-- Witness for C9 starting from the empty table. -/
theorem C9_default_workspace_idempotent_witness :
    (([] : List Session).find? (fun s => s.name == "My Notebook") = none →
      (sessionGET [] "id1").2 = [] ++ [⟨"id1", "My Notebook", "This is my notebook"⟩] ∧
      (sessionGET [] "id1").1 = ⟨"id1", "My Notebook", "This is my notebook"⟩) ∧
    (∀ s0, ([] : List Session).find? (fun s => s.name == "My Notebook") = some s0 →
      (sessionGET [] "id1").2 = [] ∧ (sessionGET [] "id1").1 = s0) ∧
    (sessionGET ((sessionGET [] "id1").2) "id2").2 = (sessionGET [] "id1").2 ∧
    (sessionGET ((sessionGET [] "id1").2) "id2").1 = (sessionGET [] "id1").1 :=
  C9_default_workspace_idempotent [] "id1" "id2"

/-- Claim C10: the small-talk pattern matches by prefix without a word
boundary, so any unscoped query whose lowercased text begins with "hi"
(for example "history of the project") is classified General-Chat and the
streaming trace performs no retrieval at all. -/
theorem C10_smalltalk_prefix_overmatch (q : String)
    (h : strStartsWith (jsToLower q) "hi" = true) :
    smallTalkTest q = true ∧ useGeneralChat [] q = true ∧
    (∀ (sid uid : String) (topK : Nat) (o : Oracle),
      hasRetrievalStep (processStreamingTrace sid q [] topK uid o) = false) := by
  have hst : smallTalkTest q = true := by
    simp only [smallTalkTest, smallTalkPatterns, List.any_cons]
    rw [h]
    rfl
  have hg : useGeneralChat [] q = true := by
    simp [useGeneralChat, hst]
  refine ⟨hst, hg, ?_⟩
  intro sid uid topK o
  simp only [processStreamingTrace, hg, if_true, hasRetrievalStep,
    generalChatStreamTrace, List.any_append, List.any_cons, List.any_nil]
  rw [tokenSteps_any_false isRetrievalStep (fun c u => rfl)]
  simp [isRetrievalStep]

/-- Witness for C10 at the concrete query "history of the project". -/
theorem C10_smalltalk_prefix_overmatch_witness :
    strStartsWith (jsToLower "history of the project") "hi" = true ∧
    (smallTalkTest "history of the project" = true ∧
     useGeneralChat [] "history of the project" = true ∧
     (∀ (sid uid : String) (topK : Nat) (o : Oracle),
       hasRetrievalStep
         (processStreamingTrace sid "history of the project" [] topK uid o) = false)) :=
  ⟨by decide, C10_smalltalk_prefix_overmatch "history of the project" (by decide)⟩

theorem tokenSteps_shape (ds : List String) (uid : String) :
    ∀ s ∈ tokenSteps ds uid, ∃ c, s = .emit (.token c uid) := by
  intro s hs
  simp only [tokenSteps, tokenEvents, List.mem_map] at hs
  obtain ⟨e, ⟨d, _, rfl⟩, rfl⟩ := hs
  exact ⟨d, rfl⟩

theorem wellSequenced_cons (s : Step) (l : List Step) :
    wellSequenced (s :: l) =
    if isPersistAssistant s then
      l.all (fun t => !isTokenEmit t && !isPersistAssistant t && !isGenerationCall t)
    else wellSequenced l := rfl

theorem wellSequenced_append_of_none (l1 l2 : List Step)
    (h : ∀ s ∈ l1, isPersistAssistant s = false) :
    wellSequenced (l1 ++ l2) = wellSequenced l2 := by
  induction l1 with
  | nil => rfl
  | cons a t ih =>
    rw [List.cons_append, wellSequenced_cons, if_neg (by
      rw [h a (List.mem_cons_self a t)]; simp)]
    exact ih (fun s hs => h s (List.mem_cons_of_mem a hs))

theorem wellSequenced_append_tokens (ds : List String) (uid : String) (l : List Step) :
    wellSequenced (tokenSteps ds uid ++ l) = wellSequenced l :=
  wellSequenced_append_of_none _ _ (by
    intro s hs
    obtain ⟨c, rfl⟩ := tokenSteps_shape ds uid s hs
    rfl)

theorem noPersistAfterError_cons_not (s : Step) (l : List Step)
    (h : isErrorEmit s = false) :
    noPersistAfterError (s :: l) = noPersistAfterError l := by
  cases s with
  | emit e => cases e <;> first | rfl | simp [isErrorEmit] at h
  | persistUser a b => rfl
  | persistAssistant a b c => rfl
  | callEmbed a => rfl
  | callSearch a => rfl
  | callGenerate => rfl
  | callGenerateStream => rfl

theorem noPersistAfterError_append_of_none (l1 l2 : List Step)
    (h : ∀ s ∈ l1, isErrorEmit s = false) :
    noPersistAfterError (l1 ++ l2) = noPersistAfterError l2 := by
  induction l1 with
  | nil => rfl
  | cons a t ih =>
    rw [List.cons_append, noPersistAfterError_cons_not a _ (h a (List.mem_cons_self a t))]
    exact ih (fun s hs => h s (List.mem_cons_of_mem a hs))

theorem noPersistAfterError_append_tokens (ds : List String) (uid : String) (l : List Step) :
    noPersistAfterError (tokenSteps ds uid ++ l) = noPersistAfterError l :=
  noPersistAfterError_append_of_none _ _ (by
    intro s hs
    obtain ⟨c, rfl⟩ := tokenSteps_shape ds uid s hs
    rfl)

theorem tokenSteps_filter_persist (ds : List String) (uid : String) :
    (tokenSteps ds uid).filter isPersistAssistant = [] := by
  rw [List.filter_eq_nil_iff]
  intro s hs
  obtain ⟨c, rfl⟩ := tokenSteps_shape ds uid s hs
  simp [isPersistAssistant]

theorem wellSequenced_cons_not (s : Step) (l : List Step)
    (h : isPersistAssistant s = false) :
    wellSequenced (s :: l) = wellSequenced l := by
  rw [wellSequenced_cons, if_neg]
  simp [h]

theorem wellSequenced_emit (e : Event) (l : List Step) :
    wellSequenced (.emit e :: l) = wellSequenced l := rfl

theorem wellSequenced_callEmbed (t : String) (l : List Step) :
    wellSequenced (.callEmbed t :: l) = wellSequenced l := rfl

theorem wellSequenced_callSearch (ss : List String) (l : List Step) :
    wellSequenced (.callSearch ss :: l) = wellSequenced l := rfl

theorem wellSequenced_callGenerate (l : List Step) :
    wellSequenced (.callGenerate :: l) = wellSequenced l := rfl

theorem wellSequenced_callGenerateStream (l : List Step) :
    wellSequenced (.callGenerateStream :: l) = wellSequenced l := rfl

theorem wellSequenced_persistUser (a b : String) (l : List Step) :
    wellSequenced (.persistUser a b :: l) = wellSequenced l := rfl

theorem wellSequenced_filter_persist_le_one (tr : List Step)
    (h : wellSequenced tr = true) : (tr.filter isPersistAssistant).length ≤ 1 := by
  induction tr with
  | nil => simp
  | cons a t ih =>
    rw [wellSequenced_cons] at h
    by_cases ha : isPersistAssistant a = true
    · rw [if_pos ha] at h
      rw [List.filter_cons_of_pos ha]
      have ht : t.filter isPersistAssistant = [] := by
        rw [List.filter_eq_nil_iff]
        intro s hs
        have hall := List.all_eq_true.mp h s hs
        simp only [Bool.and_eq_true, Bool.not_eq_true'] at hall
        simp [hall.1.2]
      simp [ht]
    · rw [if_neg ha] at h
      rw [List.filter_cons_of_neg ha]
      exact ih h

theorem general_wellSequenced (sid uid : String) (o : Oracle) :
    wellSequenced (generalChatStreamTrace sid uid o) = true := by
  simp only [generalChatStreamTrace, List.append_assoc, List.cons_append, List.nil_append]
  rw [wellSequenced_emit, wellSequenced_callGenerateStream, wellSequenced_append_tokens]
  rfl

theorem rag_wellSequenced (sid q uid : String) (dd : List RetrievalCandidate)
    (o : Oracle) : wellSequenced (ragStreamTrace sid q uid dd o) = true := by
  simp only [ragStreamTrace, List.append_assoc, List.cons_append, List.nil_append]
  rw [wellSequenced_emit, wellSequenced_callGenerateStream, wellSequenced_append_tokens]
  rfl

theorem scoped_wellSequenced (sid : String) (o : Oracle) :
    wellSequenced (scopedNoResultsTrace sid o) = true := by
  simp only [scopedNoResultsTrace]
  split
  · split
    · rfl
    · rfl
  · rfl

theorem fallback_wellSequenced (sid q uid : String) (o : Oracle) :
    wellSequenced (generalFallbackTrace sid q uid o) = true := by
  simp only [generalFallbackTrace, List.append_assoc, List.cons_append, List.nil_append]
  rw [wellSequenced_callGenerateStream, wellSequenced_append_tokens]
  rfl

theorem streaming_wellSequenced (sid q : String) (ss : List String) (topK : Nat)
    (uid : String) (o : Oracle) :
    wellSequenced (processStreamingTrace sid q ss topK uid o) = true := by
  rw [processStreamingTrace]
  by_cases hgc : useGeneralChat ss q
  · rw [if_pos hgc]
    exact general_wellSequenced sid uid o
  · rw [if_neg hgc]
    simp only [List.cons_append, List.nil_append]
    rw [wellSequenced_emit, wellSequenced_callEmbed, wellSequenced_callSearch]
    by_cases hdd : 0 < (diversityRank topK o.retrieved).length
    · rw [if_pos hdd]
      exact rag_wellSequenced sid q uid _ o
    · rw [if_neg hdd]
      by_cases hss : 0 < ss.length
      · rw [if_pos hss]
        exact scoped_wellSequenced sid o
      · rw [if_neg hss]
        exact fallback_wellSequenced sid q uid o

theorem npae_thinking (l : List Step) :
    noPersistAfterError (.emit .thinking :: l) = noPersistAfterError l := rfl

theorem npae_searching (l : List Step) :
    noPersistAfterError (.emit .searching :: l) = noPersistAfterError l := rfl

theorem npae_generating (c : List Citation) (l : List Step) :
    noPersistAfterError (.emit (.generating c) :: l) = noPersistAfterError l := rfl

theorem npae_callEmbed (t : String) (l : List Step) :
    noPersistAfterError (.callEmbed t :: l) = noPersistAfterError l := rfl

theorem npae_callSearch (ss : List String) (l : List Step) :
    noPersistAfterError (.callSearch ss :: l) = noPersistAfterError l := rfl

theorem npae_callGenerate (l : List Step) :
    noPersistAfterError (.callGenerate :: l) = noPersistAfterError l := rfl

theorem npae_callGenerateStream (l : List Step) :
    noPersistAfterError (.callGenerateStream :: l) = noPersistAfterError l := rfl

theorem npae_persistAssistant (a b : String) (c : Option (List Citation)) (l : List Step) :
    noPersistAfterError (.persistAssistant a b c :: l) = noPersistAfterError l := rfl

theorem streaming_noPersistAfterError (sid q : String) (ss : List String) (topK : Nat)
    (uid : String) (o : Oracle) :
    noPersistAfterError (processStreamingTrace sid q ss topK uid o) = true := by
  rw [processStreamingTrace]
  by_cases hgc : useGeneralChat ss q
  · rw [if_pos hgc]
    simp only [generalChatStreamTrace, List.append_assoc, List.cons_append, List.nil_append]
    rw [npae_thinking, npae_callGenerateStream, noPersistAfterError_append_tokens]
    rfl
  · rw [if_neg hgc]
    simp only [List.cons_append, List.nil_append]
    rw [npae_searching, npae_callEmbed, npae_callSearch]
    by_cases hdd : 0 < (diversityRank topK o.retrieved).length
    · rw [if_pos hdd]
      simp only [ragStreamTrace, List.append_assoc, List.cons_append, List.nil_append]
      rw [npae_generating, npae_callGenerateStream, noPersistAfterError_append_tokens]
      rfl
    · rw [if_neg hdd]
      by_cases hss : 0 < ss.length
      · rw [if_pos hss]
        simp only [scopedNoResultsTrace]
        split
        · split
          · rfl
          · rfl
        · rfl
      · rw [if_neg hss]
        simp only [generalFallbackTrace, List.append_assoc, List.cons_append, List.nil_append]
        rw [npae_callGenerateStream, noPersistAfterError_append_tokens]
        rfl

theorem npae_persistUser (a b : String) (l : List Step) :
    noPersistAfterError (.persistUser a b :: l) = noPersistAfterError l := rfl

/-- Claim C6 (amended): on a valid streaming request the user turn is the
first step of the trace (before any retrieval or generation call); at most
one assistant turn is persisted and never before streaming ends (no token,
generation call or second persistence after it); and no assistant turn is
persisted after an emitted error event.  The original claim's "no
assistant turn on a fully failed request" is refuted by
`C6_counterexample`: a failure between assistant persistence and the final
event leaves the persisted assistant turn in place. -/
theorem C6_persistence_ordering (b : QueryBody) (uid : String) (o : Oracle)
    (hs : ¬ b.sessionId = "") (hq : ¬ b.query = "") (hstr : b.streaming = true) :
    (POST b uid o).1.head? = some (.persistUser b.sessionId b.query) ∧
    wellSequenced (POST b uid o).1 = true ∧
    ((POST b uid o).1.filter isPersistAssistant).length ≤ 1 ∧
    noPersistAfterError (POST b uid o).1 = true := by
  have hPOST : (POST b uid o).1 = .persistUser b.sessionId b.query ::
      processStreamingTrace b.sessionId b.query b.selectedSources b.topK uid o := by
    simp [POST, hs, hq, hstr]
  rw [hPOST]
  refine ⟨rfl, ?_, ?_, ?_⟩
  · rw [wellSequenced_persistUser]
    exact streaming_wellSequenced _ _ _ _ _ _
  · rw [List.filter_cons_of_neg (by simp [isPersistAssistant])]
    exact wellSequenced_filter_persist_le_one _ (streaming_wellSequenced _ _ _ _ _ _)
  · rw [npae_persistUser]
    exact streaming_noPersistAfterError _ _ _ _ _ _

/-- Witness for C6 at a concrete valid streaming request. -/
theorem C6_persistence_ordering_witness :
    (POST ⟨"sess", "hello", [], true, 8⟩ "u1" ⟨[], [], [], "", "", ""⟩).1.head? =
      some (.persistUser "sess" "hello") ∧
    wellSequenced (POST ⟨"sess", "hello", [], true, 8⟩ "u1" ⟨[], [], [], "", "", ""⟩).1 = true ∧
    ((POST ⟨"sess", "hello", [], true, 8⟩ "u1"
        ⟨[], [], [], "", "", ""⟩).1.filter isPersistAssistant).length ≤ 1 ∧
    noPersistAfterError (POST ⟨"sess", "hello", [], true, 8⟩ "u1"
        ⟨[], [], [], "", "", ""⟩).1 = true :=
  C6_persistence_ordering ⟨"sess", "hello", [], true, 8⟩ "u1" ⟨[], [], [], "", "", ""⟩
    (by decide) (by decide) rfl

/-- Counterexample for C6 as stated: in the scoped no-results branch, a
model reply whose `followups` value is not sliceable (here the number 5)
persists the assistant turn and then fails while emitting the final event,
so the stream terminates in `error` (no `complete`) although an assistant
turn was persisted. -/
theorem C6_counterexample :
    (eventsOf (processStreamingTrace "sess" "what is x" ["s1"] 8 "u1"
        ⟨[], [], [], "\x7b\"answer\":\"ok\",\"followups\":5\x7d", "", ""⟩)).getLast? =
      some (.error streamErrorMessage) ∧
    (processStreamingTrace "sess" "what is x" ["s1"] 8 "u1"
        ⟨[], [], [], "\x7b\"answer\":\"ok\",\"followups\":5\x7d", "", ""⟩).any
      isPersistAssistant = true ∧
    (eventsOf (processStreamingTrace "sess" "what is x" ["s1"] 8 "u1"
        ⟨[], [], [], "\x7b\"answer\":\"ok\",\"followups\":5\x7d", "", ""⟩)).all
      (fun e => !isCompleteEvent e) = true := by
  refine ⟨?_, ?_, ?_⟩ <;> rfl

theorem eventsOf_nil : eventsOf [] = [] := rfl

theorem eventsOf_emit_cons (e : Event) (l : List Step) :
    eventsOf (.emit e :: l) = e :: eventsOf l := rfl

theorem eventsOf_persistUser_cons (a b : String) (l : List Step) :
    eventsOf (.persistUser a b :: l) = eventsOf l := rfl

theorem eventsOf_persistAssistant_cons (a b : String) (c : Option (List Citation))
    (l : List Step) : eventsOf (.persistAssistant a b c :: l) = eventsOf l := rfl

theorem eventsOf_callEmbed_cons (t : String) (l : List Step) :
    eventsOf (.callEmbed t :: l) = eventsOf l := rfl

theorem eventsOf_callSearch_cons (ss : List String) (l : List Step) :
    eventsOf (.callSearch ss :: l) = eventsOf l := rfl

theorem eventsOf_callGenerate_cons (l : List Step) :
    eventsOf (.callGenerate :: l) = eventsOf l := rfl

theorem eventsOf_callGenerateStream_cons (l : List Step) :
    eventsOf (.callGenerateStream :: l) = eventsOf l := rfl

theorem events_general (sid uid : String) (o : Oracle) :
    eventsOf (generalChatStreamTrace sid uid o) =
    .thinking :: tokenEvents o.generalDeltas uid ++
      [.complete (enhanceResponse (jsTrim (String.join o.generalDeltas))) []
        generalChatFollowups] := by
  simp only [generalChatStreamTrace, List.append_assoc, List.cons_append, List.nil_append]
  rw [eventsOf_emit_cons, eventsOf_callGenerateStream_cons, eventsOf_append,
    eventsOf_tokenSteps, eventsOf_persistAssistant_cons, eventsOf_emit_cons, eventsOf_nil]

theorem events_rag (sid q uid : String) (dd : List RetrievalCandidate) (o : Oracle) :
    eventsOf (ragStreamTrace sid q uid dd o) =
    .generating (mkCitations dd) :: tokenEvents o.ragDeltas uid ++
      [.complete (ragParsed q (mkContext dd) (String.join o.ragDeltas)).1 (mkCitations dd)
        (ragParsed q (mkContext dd) (String.join o.ragDeltas)).2] := by
  simp only [ragStreamTrace, List.append_assoc, List.cons_append, List.nil_append]
  rw [eventsOf_emit_cons, eventsOf_callGenerateStream_cons, eventsOf_append,
    eventsOf_tokenSteps, eventsOf_persistAssistant_cons, eventsOf_emit_cons, eventsOf_nil]

theorem events_fallback (sid q uid : String) (o : Oracle) :
    eventsOf (generalFallbackTrace sid q uid o) =
    tokenEvents o.generalDeltas uid ++
      [.complete (enhanceResponse (jsTrim (String.join o.generalDeltas))) []
        (.arr (((generateStrategicFollowups q "").take 3).map Json.str))] := by
  simp only [generalFallbackTrace, List.append_assoc, List.cons_append, List.nil_append]
  rw [eventsOf_callGenerateStream_cons, eventsOf_append, eventsOf_tokenSteps,
    eventsOf_persistAssistant_cons, eventsOf_emit_cons, eventsOf_nil]

theorem events_scoped (sid : String) (o : Oracle) :
    ∃ t, eventsOf (scopedNoResultsTrace sid o) = [t] ∧ isTerminal t = true ∧
      (∀ c u, t ≠ .token c u) := by
  simp only [scopedNoResultsTrace]
  split
  · split
    · exact ⟨.complete _ [] _, rfl, rfl, fun c u => by simp⟩
    · exact ⟨.error streamErrorMessage, rfl, rfl, fun c u => by simp⟩
  · exact ⟨.error streamErrorMessage, rfl, rfl, fun c u => by simp⟩

theorem tokenEvents_shape (ds : List String) (uid : String) :
    ∀ e ∈ tokenEvents ds uid, ∃ c, e = .token c uid := by
  intro e he
  simp only [tokenEvents, List.mem_map] at he
  obtain ⟨d, _, rfl⟩ := he
  exact ⟨d, rfl⟩

theorem terminal_shape (pre : List Event) (t : Event)
    (hpre : ∀ e ∈ pre, isTerminal e = false) (ht : isTerminal t = true) :
    ((pre ++ [t]).filter isTerminal).length = 1 ∧
    (∃ e, (pre ++ [t]).getLast? = some e ∧ isTerminal e = true) := by
  constructor
  · rw [List.filter_append]
    rw [List.filter_eq_nil_iff.mpr (by intro a ha; simp [hpre a ha])]
    simp [ht]
  · exact ⟨t, List.getLast?_concat _, ht⟩

theorem mkCitations_length (dd : List RetrievalCandidate) :
    (mkCitations dd).length = dd.length := by
  simp [mkCitations]

theorem mkCitations_indices (dd : List RetrievalCandidate) :
    (mkCitations dd).map Citation.index = List.range' 1 dd.length := by
  simp only [mkCitations, List.map_map]
  have h1 : (Citation.index ∘ fun p : Nat × RetrievalCandidate =>
      (⟨p.2.id, p.1 + 1, jsMetaOrEmpty p.2.metadata, p.2.sourceId⟩ : Citation)) =
      (fun n => n + 1) ∘ Prod.fst := rfl
  rw [h1, ← List.map_map, List.enum_map_fst, List.range'_eq_map_range]
  exact List.map_congr_left (fun a _ => by omega)

/-- Claim C5: every streaming query emits an ordered event sequence with
exactly one terminal event, which comes last; every token event carries
the originating user-turn id; the RAG path with non-empty ranked evidence
emits `searching`, `generating` (with the citation list), tokens, then one
`complete` whose citation list has the ranked-evidence length with index
fields 1..N matching the context enumeration; the General-Chat path emits
`thinking` in place of `searching`/`generating`. -/
theorem C5_streaming_event_sequence (sid q : String) (ss : List String) (topK : Nat)
    (uid : String) (o : Oracle) :
    (((eventsOf (processStreamingTrace sid q ss topK uid o)).filter isTerminal).length = 1 ∧
     (∃ e, (eventsOf (processStreamingTrace sid q ss topK uid o)).getLast? = some e ∧
        isTerminal e = true) ∧
     (∀ c u, Event.token c u ∈ eventsOf (processStreamingTrace sid q ss topK uid o) →
        u = uid)) ∧
    (useGeneralChat ss q = false → 0 < (diversityRank topK o.retrieved).length →
      eventsOf (processStreamingTrace sid q ss topK uid o) =
        .searching :: .generating (mkCitations (diversityRank topK o.retrieved)) ::
          tokenEvents o.ragDeltas uid ++
          [.complete
            (ragParsed q (mkContext (diversityRank topK o.retrieved))
              (String.join o.ragDeltas)).1
            (mkCitations (diversityRank topK o.retrieved))
            (ragParsed q (mkContext (diversityRank topK o.retrieved))
              (String.join o.ragDeltas)).2] ∧
      (mkCitations (diversityRank topK o.retrieved)).length =
        (diversityRank topK o.retrieved).length ∧
      (mkCitations (diversityRank topK o.retrieved)).map Citation.index =
        List.range' 1 (diversityRank topK o.retrieved).length) ∧
    (useGeneralChat ss q = true →
      eventsOf (processStreamingTrace sid q ss topK uid o) =
        .thinking :: tokenEvents o.generalDeltas uid ++
          [.complete (enhanceResponse (jsTrim (String.join o.generalDeltas))) []
            generalChatFollowups]) := by
  by_cases hgc : useGeneralChat ss q = true
  · have hevs : eventsOf (processStreamingTrace sid q ss topK uid o) =
        .thinking :: tokenEvents o.generalDeltas uid ++
          [.complete (enhanceResponse (jsTrim (String.join o.generalDeltas))) []
            generalChatFollowups] := by
      rw [processStreamingTrace, if_pos hgc]
      exact events_general sid uid o
    have hpre : ∀ e ∈ (Event.thinking :: tokenEvents o.generalDeltas uid),
        isTerminal e = false := by
      intro e he
      rcases List.mem_cons.mp he with rfl | he
      · rfl
      · obtain ⟨c, rfl⟩ := tokenEvents_shape _ _ e he
        rfl
    refine ⟨⟨?_, ?_, ?_⟩, fun hfalse => absurd hgc (by simp [hfalse]), fun _ => hevs⟩
    · rw [hevs]
      exact (terminal_shape _
        (.complete (enhanceResponse (jsTrim (String.join o.generalDeltas))) []
          generalChatFollowups) hpre rfl).1
    · rw [hevs]
      exact (terminal_shape _
        (.complete (enhanceResponse (jsTrim (String.join o.generalDeltas))) []
          generalChatFollowups) hpre rfl).2
    · intro c u hmem
      rw [hevs] at hmem
      rcases List.mem_append.mp hmem with hmem2 | h
      · rcases List.mem_cons.mp hmem2 with h | h
        · exact absurd h (by simp)
        · exact tokenEvents_uid _ _ _ _ h
      · simp only [List.mem_singleton] at h
        exact absurd h (by simp)
  · have hgcf : useGeneralChat ss q = false := by simpa using hgc
    have htop : eventsOf (processStreamingTrace sid q ss topK uid o) =
        .searching :: eventsOf
          (if 0 < (diversityRank topK o.retrieved).length then
            ragStreamTrace sid q uid (diversityRank topK o.retrieved) o
          else if 0 < ss.length then scopedNoResultsTrace sid o
          else generalFallbackTrace sid q uid o) := by
      rw [processStreamingTrace, if_neg hgc]
      simp only [List.cons_append, List.nil_append]
      rw [eventsOf_emit_cons, eventsOf_callEmbed_cons, eventsOf_callSearch_cons]
    by_cases hdd : 0 < (diversityRank topK o.retrieved).length
    · have hevs : eventsOf (processStreamingTrace sid q ss topK uid o) =
          .searching :: .generating (mkCitations (diversityRank topK o.retrieved)) ::
            tokenEvents o.ragDeltas uid ++
            [.complete
              (ragParsed q (mkContext (diversityRank topK o.retrieved))
                (String.join o.ragDeltas)).1
              (mkCitations (diversityRank topK o.retrieved))
              (ragParsed q (mkContext (diversityRank topK o.retrieved))
                (String.join o.ragDeltas)).2] := by
        rw [htop, if_pos hdd, events_rag]
        rfl
      have hpre : ∀ e ∈ (Event.searching ::
          Event.generating (mkCitations (diversityRank topK o.retrieved)) ::
          tokenEvents o.ragDeltas uid), isTerminal e = false := by
        intro e he
        rcases List.mem_cons.mp he with rfl | he
        · rfl
        · rcases List.mem_cons.mp he with rfl | he
          · rfl
          · obtain ⟨c, rfl⟩ := tokenEvents_shape _ _ e he
            rfl
      refine ⟨⟨?_, ?_, ?_⟩, fun _ _ => ⟨hevs, mkCitations_length _, mkCitations_indices _⟩,
        fun htrue => absurd htrue hgc⟩
      · rw [hevs]
        exact (terminal_shape _
          (.complete
            (ragParsed q (mkContext (diversityRank topK o.retrieved))
              (String.join o.ragDeltas)).1
            (mkCitations (diversityRank topK o.retrieved))
            (ragParsed q (mkContext (diversityRank topK o.retrieved))
              (String.join o.ragDeltas)).2) hpre rfl).1
      · rw [hevs]
        exact (terminal_shape _
          (.complete
            (ragParsed q (mkContext (diversityRank topK o.retrieved))
              (String.join o.ragDeltas)).1
            (mkCitations (diversityRank topK o.retrieved))
            (ragParsed q (mkContext (diversityRank topK o.retrieved))
              (String.join o.ragDeltas)).2) hpre rfl).2
      · intro c u hmem
        rw [hevs] at hmem
        rcases List.mem_append.mp hmem with hmem2 | h
        · rcases List.mem_cons.mp hmem2 with h | hmem3
          · exact absurd h (by simp)
          · rcases List.mem_cons.mp hmem3 with h | h
            · exact absurd h (by simp)
            · exact tokenEvents_uid _ _ _ _ h
        · simp only [List.mem_singleton] at h
          exact absurd h (by simp)
    · by_cases hss : 0 < ss.length
      · obtain ⟨t, htev, htt, htok⟩ := events_scoped sid o
        have hevs : eventsOf (processStreamingTrace sid q ss topK uid o) =
            [Event.searching] ++ [t] := by
          rw [htop, if_neg hdd, if_pos hss, htev]
          rfl
        refine ⟨⟨?_, ?_, ?_⟩, fun _ h0 => absurd h0 hdd, fun htrue => absurd htrue hgc⟩
        · rw [hevs]
          exact (terminal_shape [Event.searching] t
            (by intro e he; simp at he; subst he; rfl) htt).1
        · rw [hevs]
          exact (terminal_shape [Event.searching] t
            (by intro e he; simp at he; subst he; rfl) htt).2
        · intro c u hmem
          rw [hevs] at hmem
          rcases List.mem_append.mp hmem with h | h
          · simp only [List.mem_singleton] at h
            exact absurd h (by simp)
          · simp only [List.mem_singleton] at h
            exact absurd h.symm (htok c u)
      · have hevs : eventsOf (processStreamingTrace sid q ss topK uid o) =
            .searching :: tokenEvents o.generalDeltas uid ++
              [.complete (enhanceResponse (jsTrim (String.join o.generalDeltas))) []
                (.arr (((generateStrategicFollowups q "").take 3).map Json.str))] := by
          rw [htop, if_neg hdd, if_neg hss, events_fallback]
          rfl
        have hpre : ∀ e ∈ (Event.searching :: tokenEvents o.generalDeltas uid),
            isTerminal e = false := by
          intro e he
          rcases List.mem_cons.mp he with rfl | he
          · rfl
          · obtain ⟨c, rfl⟩ := tokenEvents_shape _ _ e he
            rfl
        refine ⟨⟨?_, ?_, ?_⟩, fun _ h0 => absurd h0 hdd, fun htrue => absurd htrue hgc⟩
        · rw [hevs]
          exact (terminal_shape _
            (.complete (enhanceResponse (jsTrim (String.join o.generalDeltas))) []
              (.arr (((generateStrategicFollowups q "").take 3).map Json.str))) hpre rfl).1
        · rw [hevs]
          exact (terminal_shape _
            (.complete (enhanceResponse (jsTrim (String.join o.generalDeltas))) []
              (.arr (((generateStrategicFollowups q "").take 3).map Json.str))) hpre rfl).2
        · intro c u hmem
          rw [hevs] at hmem
          rcases List.mem_append.mp hmem with hmem2 | h
          · rcases List.mem_cons.mp hmem2 with h | h
            · exact absurd h (by simp)
            · exact tokenEvents_uid _ _ _ _ h
          · simp only [List.mem_singleton] at h
            exact absurd h (by simp)

theorem findIdx_first (l1 l2 : List Char) (c : Char)
    (h1 : c ∉ l1) (h2 : l2.head? = some c) :
    (l1 ++ l2).findIdx? (· == c) = some l1.length := by
  rw [List.findIdx?_append]
  have hnone : l1.findIdx? (· == c) = none := by
    rw [List.findIdx?_eq_none_iff]
    intro x hx
    exact beq_eq_false_iff_ne.mpr (fun h => h1 (h ▸ hx))
  rw [hnone, Option.none_or]
  cases l2 with
  | nil => simp at h2
  | cons a t =>
    simp only [List.head?_cons, Option.some.injEq] at h2
    subst h2
    simp

theorem jsIndexOf_embed (pre core post : String) (hh : core.data.head? = some lbC)
    (hpre : lbC ∉ pre.data) :
    jsIndexOf (pre ++ core ++ post) lbC = (pre.data.length : Int) := by
  have hdata : (pre ++ core ++ post).data = pre.data ++ (core.data ++ post.data) := by
    show (pre.data ++ core.data) ++ post.data = _
    rw [List.append_assoc]
  have hhd : (core.data ++ post.data).head? = some lbC := by
    cases hcd : core.data with
    | nil => rw [hcd] at hh; simp at hh
    | cons a t =>
      rw [hcd] at hh
      simp only [List.head?_cons, Option.some.injEq] at hh
      subst hh
      rfl
  simp only [jsIndexOf, hdata, findIdx_first pre.data (core.data ++ post.data) lbC hpre hhd]

theorem jsLastIndexOf_embed (pre core post : String)
    (hl : core.data.getLast? = some rbC) (hpost : rbC ∉ post.data) :
    jsLastIndexOf (pre ++ core ++ post) rbC =
      ((pre ++ core ++ post).data.length : Int) - 1 - (post.data.length : Int) := by
  have hdata : (pre ++ core ++ post).data.reverse =
      post.data.reverse ++ (core.data.reverse ++ pre.data.reverse) := by
    show ((pre.data ++ core.data) ++ post.data).reverse = _
    simp [List.reverse_append]
  have hhd : (core.data.reverse ++ pre.data.reverse).head? = some rbC := by
    have hrev : core.data.reverse.head? = some rbC := by
      rw [List.head?_reverse]
      exact hl
    cases hcd : core.data.reverse with
    | nil => rw [hcd] at hrev; simp at hrev
    | cons a t =>
      rw [hcd] at hrev
      simp only [List.head?_cons, Option.some.injEq] at hrev
      subst hrev
      rfl
  have hrevmem : rbC ∉ post.data.reverse := by
    rw [List.mem_reverse]
    exact hpost
  simp only [jsLastIndexOf, hdata,
    findIdx_first post.data.reverse (core.data.reverse ++ pre.data.reverse) rbC hrevmem hhd]
  simp [List.length_reverse]

theorem jsSlice_embed (pre core post : String) :
    jsSlice (pre ++ core ++ post) (pre.data.length : Int)
      ((pre.data.length : Int) + (core.data.length : Int)) = core := by
  have hdata : (pre ++ core ++ post).data = pre.data ++ (core.data ++ post.data) := by
    show (pre.data ++ core.data) ++ post.data = _
    rw [List.append_assoc]
  have hlen : ((pre ++ core ++ post).data.length : Int) =
      (pre.data.length : Int) + (core.data.length : Int) + (post.data.length : Int) := by
    rw [hdata]
    push_cast [List.length_append]
    ring
  simp only [jsSlice]
  rw [if_neg (by omega), if_neg (by omega)]
  rw [min_eq_left (by omega), min_eq_left (by omega)]
  have h1 : ((pre.data.length : Int)).toNat = pre.data.length := Int.toNat_natCast _
  have h2 : ((pre.data.length : Int) + (core.data.length : Int)).toNat =
      pre.data.length + core.data.length := by omega
  rw [h1, h2]
  have h3 : pre.data.length + core.data.length - pre.data.length = core.data.length := by
    omega
  rw [h3, hdata, List.drop_left, List.take_left]

theorem braceParse_embed (pre core post : String)
    (hh : core.data.head? = some lbC) (hl : core.data.getLast? = some rbC)
    (hpre : lbC ∉ pre.data) (hpost : rbC ∉ post.data) :
    braceParse (pre ++ core ++ post) = jsonParse core := by
  have hcne : 0 < core.data.length := by
    cases hcd : core.data with
    | nil => rw [hcd] at hh; simp at hh
    | cons a t => simp
  have hlen : ((pre ++ core ++ post).data.length : Int) =
      (pre.data.length : Int) + (core.data.length : Int) + (post.data.length : Int) := by
    show (((pre.data ++ core.data) ++ post.data).length : Int) = _
    push_cast [List.length_append]
    ring
  simp only [braceParse]
  rw [jsIndexOf_embed pre core post hh hpre, jsLastIndexOf_embed pre core post hl hpost]
  rw [if_pos (by
    simp only [Bool.and_eq_true, decide_eq_true_eq]
    constructor
    · omega
    · omega)]
  rw [show ((pre ++ core ++ post).data.length : Int) - 1 - (post.data.length : Int) + 1 =
      (pre.data.length : Int) + (core.data.length : Int) from by omega]
  exact congrArg jsonParse (jsSlice_embed pre core post)

/-- Claim C8: parsing is a round-trip for well-formed model output — the
structured response parses to answer "X [1]" and exactly two follow-ups,
and surrounding it with any prose holding no brace of the matching kind
parses to the same result by brace-slicing. -/
theorem C8_round_trip :
    jsonParse c8json =
      some (.obj [("answer", .str "X [1]"), ("followups", .arr [.str "a", .str "b"])]) ∧
    nsParse c8json = ("X [1]", [.str "a", .str "b"]) ∧
    (nsParse c8json).2.length = 2 ∧
    braceParse c8json = jsonParse c8json ∧
    (∀ pre post : String, lbC ∉ pre.data → rbC ∉ post.data →
      braceParse (pre ++ c8json ++ post) = braceParse c8json) := by
  refine ⟨rfl, rfl, rfl, rfl, ?_⟩
  intro pre post hpre hpost
  rw [braceParse_embed pre c8json post rfl rfl hpre hpost]
  rfl

/-- Witness for C8 with concrete prose around the JSON object. -/
theorem C8_round_trip_witness :
    lbC ∉ ("Sure: " : String).data ∧ rbC ∉ (" done." : String).data ∧
    braceParse ("Sure: " ++ c8json ++ " done.") = braceParse c8json :=
  ⟨by decide, by decide, C8_round_trip.2.2.2.2 "Sure: " " done." (by decide) (by decide)⟩

/-- Counterexample for C3 as stated: for the non-JSON model output
"just plain text" the non-streaming parse step answers with the fixed
fallback message, not the raw trimmed (or cleaned) model text. -/
theorem C3_counterexample :
    nsParse "just plain text" =
      ("I had trouble processing the response. Please try again.", []) ∧
    enhanceResponse "just plain text" = "just plain text." ∧
    (nsParse "just plain text").1 ≠ "just plain text" ∧
    (nsParse "just plain text").1 ≠ enhanceResponse "just plain text" := by
  refine ⟨rfl, rfl, by decide, by decide⟩

/-- Claim C3 (amended): the parse/repair step never raises — whenever the
brace-slice fails to yield parseable JSON (or no braces are found), the
streaming path answers with the cleanup pass applied to the raw trimmed
text (or a fixed message when blank) plus heuristic follow-ups, and the
non-streaming path answers with a fixed non-empty fallback message and an
empty follow-up list; so some answer text is always produced on these
paths. -/
theorem C3_parse_repair_fallback (query context full txt : String)
    (h1 : braceParse full = none) (h2 : nsParseRaw txt = none) :
    ragParsed query context full =
      (enhanceResponse (jsOrDefault (jsTrim full) "I had trouble processing the response."),
       .arr (((generateStrategicFollowups query "").take 3).map Json.str)) ∧
    nsParse txt = ("I had trouble processing the response. Please try again.", []) := by
  constructor
  · simp only [ragParsed, h1]
  · simp only [nsParse, h2]

/-- Witness for C3 at the raw output "just plain text". -/
theorem C3_parse_repair_fallback_witness :
    braceParse "just plain text" = none ∧ nsParseRaw "just plain text" = none ∧
    (ragParsed "how to x" "ctx" "just plain text" =
      (enhanceResponse
        (jsOrDefault (jsTrim "just plain text") "I had trouble processing the response."),
       .arr (((generateStrategicFollowups "how to x" "").take 3).map Json.str)) ∧
     nsParse "just plain text" =
       ("I had trouble processing the response. Please try again.", [])) :=
  ⟨rfl, rfl, C3_parse_repair_fallback "how to x" "ctx" "just plain text" "just plain text" rfl rfl⟩

/-- Counterexample for C4 as stated: a scoped non-streaming query with
empty retrieval answers with a fixed canned string and performs no
generation call at all, so the response is not produced via the dedicated
no-results prompt path. -/
theorem C4_counterexample :
    diversityRank 8 ([] : List RetrievalCandidate) = [] ∧
    (processNonStreamingTrace "sess" "what is x" ["s1"] 8
        ⟨[], [], [], "", "", ""⟩).1.any isGenerationCall = false ∧
    (processNonStreamingTrace "sess" "what is x" ["s1"] 8
        ⟨[], [], [], "", "", ""⟩).2.answer = nsScopedCanned := by
  refine ⟨rfl, rfl, rfl⟩

/-- Claim C4 (amended): with empty ranker output, the streaming path uses
the dedicated no-results branch when an explicit scope is present (and its
answer is the non-empty enhanced default whenever the model reply fails to
parse) and falls back to a General-Chat style streamed response when
unscoped; the non-streaming path returns a fixed non-empty canned answer
without any generation call; and the user turn is persisted before any
other step of a valid request. -/
theorem C4_no_evidence_paths (sid q : String) (ss : List String) (topK : Nat)
    (uid : String) (o : Oracle) (hempty : diversityRank topK o.retrieved = []) :
    (0 < ss.length →
      processStreamingTrace sid q ss topK uid o =
        [.emit .searching, .callEmbed q, .callSearch ss] ++ scopedNoResultsTrace sid o ∧
      (braceParse o.noResultsInvoke = none →
        eventsOf (processStreamingTrace sid q ss topK uid o) =
          [.searching, .complete (enhanceResponse noResultsDefaultAnswer) [] (.arr [])]) ∧
      (processNonStreamingTrace sid q ss topK o).1.any isGenerationCall = false ∧
      (processNonStreamingTrace sid q ss topK o).2.answer = nsScopedCanned) ∧
    (ss.length = 0 → smallTalkTest q = false →
      processStreamingTrace sid q ss topK uid o =
        [.emit .searching, .callEmbed q, .callSearch ss] ++ generalFallbackTrace sid q uid o ∧
      (processNonStreamingTrace sid q ss topK o).2.answer = nsUnscopedCanned) ∧
    enhanceResponse noResultsDefaultAnswer ≠ "" ∧
    nsScopedCanned ≠ "" ∧ nsUnscopedCanned ≠ "" ∧
    (∀ b : QueryBody, ¬ b.sessionId = "" → ¬ b.query = "" → b.streaming = true →
      (POST b uid o).1.head? = some (.persistUser b.sessionId b.query)) := by
  refine ⟨?_, ?_, by decide, by decide, by decide, ?_⟩
  · intro hss
    have hne : (ss.length == 0) = false := by
      rw [beq_eq_false_iff_ne]
      omega
    have hgc : useGeneralChat ss q = false := by
      simp [useGeneralChat, hne]
    have htr : processStreamingTrace sid q ss topK uid o =
        [.emit .searching, .callEmbed q, .callSearch ss] ++ scopedNoResultsTrace sid o := by
      rw [processStreamingTrace, if_neg (by simp [hgc])]
      rw [hempty]
      simp only [List.length_nil, Nat.lt_irrefl, if_false]
      rw [if_pos hss]
    refine ⟨htr, ?_, ?_, ?_⟩
    · intro hbp
      rw [htr, eventsOf_append]
      simp only [scopedNoResultsTrace, hbp, Option.getD_none]
      rfl
    · rw [processNonStreamingTrace]
      rw [if_neg (by simp [hgc])]
      rw [hempty]
      rfl
    · rw [processNonStreamingTrace]
      rw [if_neg (by simp [hgc])]
      rw [hempty]
      simp only [List.length_nil, beq_self_eq_true, if_true]
      simp only [if_pos hss]
  · intro hss hsmall
    have hgc : useGeneralChat ss q = false := by
      simp [useGeneralChat, hsmall]
    have hssf : ¬ 0 < ss.length := by omega
    refine ⟨?_, ?_⟩
    · rw [processStreamingTrace, if_neg (by simp [hgc])]
      rw [hempty]
      simp only [List.length_nil, Nat.lt_irrefl, if_false]
      rw [if_neg hssf]
    · rw [processNonStreamingTrace]
      rw [if_neg (by simp [hgc])]
      rw [hempty]
      simp only [List.length_nil, beq_self_eq_true, if_true]
      rw [if_neg hssf]
  · intro b hb1 hb2 hb3
    simp [POST, hb1, hb2, hb3]

/-- Witness for C4 at a concrete scoped query with empty retrieval. -/
theorem C4_no_evidence_paths_witness :
    diversityRank 8 (Oracle.retrieved ⟨[], [], [], "", "", ""⟩) = [] ∧
    0 < (["s1"] : List String).length ∧
    braceParse "" = none ∧
    eventsOf (processStreamingTrace "sess" "what is x" ["s1"] 8 "u1"
        ⟨[], [], [], "", "", ""⟩) =
      [.searching, .complete (enhanceResponse noResultsDefaultAnswer) [] (.arr [])] ∧
    (processNonStreamingTrace "sess" "what is x" ["s1"] 8
        ⟨[], [], [], "", "", ""⟩).2.answer = nsScopedCanned :=
  ⟨rfl, by decide, rfl,
   ((C4_no_evidence_paths "sess" "what is x" ["s1"] 8 "u1"
       ⟨[], [], [], "", "", ""⟩ rfl).1 (by decide)).2.1 rfl,
   ((C4_no_evidence_paths "sess" "what is x" ["s1"] 8 "u1"
       ⟨[], [], [], "", "", ""⟩ rfl).1 (by decide)).2.2.2⟩

/-- Witness for C5 on a concrete RAG request with one candidate and two
streamed deltas. -/
theorem C5_streaming_event_sequence_witness :
    useGeneralChat ["s1"] "how to x" = false ∧
    0 < (diversityRank 8 [⟨"d1", "alpha content", .null, "s1"⟩]).length ∧
    (eventsOf (processStreamingTrace "sess" "how to x" ["s1"] 8 "u1"
        ⟨[⟨"d1", "alpha content", .null, "s1"⟩], [], ["Hel", "lo"], "", "", ""⟩) =
      .searching ::
        .generating (mkCitations (diversityRank 8 [⟨"d1", "alpha content", .null, "s1"⟩])) ::
        tokenEvents ["Hel", "lo"] "u1" ++
        [.complete
          (ragParsed "how to x" (mkContext (diversityRank 8 [⟨"d1", "alpha content", .null, "s1"⟩]))
            (String.join ["Hel", "lo"])).1
          (mkCitations (diversityRank 8 [⟨"d1", "alpha content", .null, "s1"⟩]))
          (ragParsed "how to x" (mkContext (diversityRank 8 [⟨"d1", "alpha content", .null, "s1"⟩]))
            (String.join ["Hel", "lo"])).2] ∧
     (mkCitations (diversityRank 8 [⟨"d1", "alpha content", .null, "s1"⟩])).length =
       (diversityRank 8 [⟨"d1", "alpha content", .null, "s1"⟩]).length ∧
     (mkCitations (diversityRank 8 [⟨"d1", "alpha content", .null, "s1"⟩])).map Citation.index =
       List.range' 1 (diversityRank 8 [⟨"d1", "alpha content", .null, "s1"⟩]).length) :=
  ⟨by decide, by decide,
   (C5_streaming_event_sequence "sess" "how to x" ["s1"] 8 "u1"
      ⟨[⟨"d1", "alpha content", .null, "s1"⟩], [], ["Hel", "lo"], "", "", ""⟩).2.1
     (by decide) (by decide)⟩
